import Mathlib

/-!
Verification of the scene-graph core of the streamlabs-obs repository.

The `ScenesService` methods (`createScene`, `removeScene`, `makeSceneActive`,
`setSceneOrder`, the getters) are embedded directly from
`src/app/services/notifications/notifications-api.ts`.  The `Scene` /
`SceneItem` classes (`addSource`, `removeItem`, `setTransform`, `setSettings`)
are not part of the visible sources; they are modelled from the spec
(sections 3, 4.1, 4.2) and marked as such in their doc comments.

State is explicit: every mutating operation takes a `ScenesState` and returns
the result value, the successor state and the list of emitted events, in
emission order.
-/

namespace Slobs

/-- Per-item crop, stored values (integers after write-time rounding). -/
structure Crop where
  top : Int
  bottom : Int
  left : Int
  right : Int
  deriving DecidableEq

/-- Per-item transform as stored on a scene item (spec section 3). -/
structure ItemTransform where
  posX : ℚ
  posY : ℚ
  scaleX : ℚ
  scaleY : ℚ
  rotation : ℚ
  crop : Crop
  deriving DecidableEq

/-- Partial crop update: omitted fields are left unchanged. Inputs may be
fractional (spec: rounded to nearest integer at write time). -/
structure CropPatch where
  top : Option ℚ := none
  bottom : Option ℚ := none
  left : Option ℚ := none
  right : Option ℚ := none
  deriving DecidableEq

/-- Partial transform update (spec section 4.2: merge provided fields). -/
structure TransformPatch where
  posX : Option ℚ := none
  posY : Option ℚ := none
  scaleX : Option ℚ := none
  scaleY : Option ℚ := none
  rotation : Option ℚ := none
  crop : Option CropPatch := none
  deriving DecidableEq

/-- A scene item (node): references a source by id, carries a transform and
the visibility/lock flags (embeds `ISceneItem`). -/
structure SceneItemRec where
  sceneItemId : String
  sourceId : String
  transform : ItemTransform
  visible : Bool
  locked : Bool
  deriving DecidableEq

/-- A scene record, as created by `ScenesService.ADD_SCENE`:
`{ id, name, resourceId, nodes: [] }`. -/
structure SceneRec where
  id : String
  name : String
  resourceId : String
  nodes : List SceneItemRec
  deriving DecidableEq

/-- A registered source (`SourcesService` entry).  `isSceneSource` is true for
the source that represents a scene (scenes are registered as sources so they
can be embedded). -/
structure SourceRec where
  id : String
  name : String
  isSceneSource : Bool
  deriving DecidableEq

/-- The `ScenesService` state (`IScenesState`), extended with the source
registry and a counter modelling the external `getUniqueId` id supply.
`scenes` is an insertion-ordered key/value list modelling the JS object. -/
structure ScenesState where
  activeSceneId : String
  displayOrder : List String
  scenes : List (String × SceneRec)
  sources : List (String × SourceRec)
  counter : Nat
  deriving DecidableEq

/-- The events of the scene event stream (spec section 4.4); payloads are the
identifying fields consumers read (ids and names). -/
inductive SceneEvent where
  | sceneAdded (id name : String)
  | sceneRemoved (id name : String)
  | sceneSwitched (id name : String)
  | itemAdded (sceneItemId sourceId : String)
  | itemRemoved (sceneItemId sourceId : String)
  | itemUpdated (sceneItemId : String)
  deriving DecidableEq

/-- Association-list lookup (first entry with the key; keys are unique by
construction, mirroring a JS object). -/
def alookup {α : Type} : List (String × α) → String → Option α
  | [], _ => none
  | p :: t, k => if p.1 == k then some p.2 else alookup t k

/-- JS-object style insert: overwrite in place if the key exists, else append
(string-keyed JS objects preserve insertion order). -/
def upsert {α : Type} : List (String × α) → String → α → List (String × α)
  | [], k, v => [(k, v)]
  | p :: t, k, v => if p.1 == k then (k, v) :: t else p :: upsert t k v

/-- Update the value stored at a key, leaving other entries alone. -/
def updateVal {α : Type} (l : List (String × α)) (k : String) (f : α → α) :
    List (String × α) :=
  l.map (fun p => if p.1 == k then (p.1, f p.2) else p)

/-- `ScenesService.getScene` (a pure read). -/
def getScene (st : ScenesState) (id : String) : Option SceneRec :=
  alookup st.scenes id

/-- The scene ids, in insertion order (`Object.keys(this.state.scenes)`). -/
def sceneKeys (st : ScenesState) : List String :=
  st.scenes.map (fun p => p.1)

/-- `ScenesService.getSceneByName`: iterates all scenes and keeps the last
one whose name matches (the source loop overwrites `foundScene`). -/
def getSceneByName (st : ScenesState) (name : String) : Option SceneRec :=
  ((st.scenes.filter (fun p => p.2.name == name)).map (fun p => p.2)).getLast?

/-- `ScenesService.getSceneItems`: concatenation of the scenes' item lists,
in display order (`this.scenes` maps `displayOrder` through `getScene`). -/
def getSceneItems (st : ScenesState) : List SceneItemRec :=
  st.displayOrder.flatMap (fun d =>
    match getScene st d with
    | none => []
    | some sc => sc.nodes)

/-- `ScenesService.getSceneItem`: global first-match search across scenes. -/
def findItem (st : ScenesState) (sceneItemId : String) : Option SceneItemRec :=
  (getSceneItems st).find? (fun n => n.sceneItemId == sceneItemId)

/-- `ScenesService.setSceneOrder` / `SET_SCENE_ORDER`: the source replaces
`displayOrder` with the given list unconditionally (no validation). -/
def setSceneOrder (st : ScenesState) (order : List String) : ScenesState :=
  { st with displayOrder := order }

/-- `ScenesService.makeSceneActive`: no-op returning `false` for an unknown
id; otherwise sets the active pointer and emits `sceneSwitched`. -/
def makeSceneActive (st : ScenesState) (id : String) :
    Bool × ScenesState × List SceneEvent :=
  match getScene st id with
  | none => (false, st, [])
  | some sc =>
      (true, { st with activeSceneId := id }, [.sceneSwitched sc.id sc.name])

/-- Whether `id` names a registered scene (scene-type source). -/
def isSceneSource (st : ScenesState) (id : String) : Bool :=
  (getScene st id).isSome

/-- The scene ids directly embedded in scene `a`: the source ids of `a`'s
node list that are themselves scenes ("node references nested scene"). -/
def nestedIds (st : ScenesState) (a : String) : List String :=
  match getScene st a with
  | none => []
  | some sc => (sc.nodes.map (fun n => n.sourceId)).filter
      (fun s => isSceneSource st s)

/-- Fuel-bounded reachability over the nested-scene relation: `true` iff a
chain of 1 to `fuel` nestings leads from `a` to `b`. -/
def reachesB (st : ScenesState) : Nat → String → String → Bool
  | 0, _, _ => false
  | n + 1, a, b =>
      (nestedIds st a).any (fun c => c == b || reachesB st n c b)

/-- One step of the "scene contains nested scene" relation. -/
def SceneEdge (st : ScenesState) (a b : String) : Prop :=
  b ∈ nestedIds st a

instance (st : ScenesState) (a b : String) : Decidable (SceneEdge st a b) := by
  unfold SceneEdge; infer_instance

/-- Transitive reachability through nested-scene references. -/
def Reaches (st : ScenesState) : String → String → Prop :=
  Relation.TransGen (SceneEdge st)

/-- No scene is reachable from itself: cycle freedom of the scene graph. -/
def Acyclic (st : ScenesState) : Prop :=
  ∀ s : String, ¬ Reaches st s s

/-- The walk fuel used by the insertion check; sufficient because a
duplicate-free chain of nested scenes has at most `st.scenes.length` steps. -/
def cycleFuel (st : ScenesState) : Nat :=
  st.scenes.length + 1

/-- Modelled from the spec: the `Scene.addSource` cycle-prevention check
(section 4.1), which is not part of the visible sources.  Before inserting a
node referencing a scene-type source, walk the candidate source's own node
list transitively and refuse if the target scene id appears anywhere in that
transitive closure (the closure includes the candidate itself, which rejects
direct self-embedding). -/
def embedWouldCycle (st : ScenesState) (targetSceneId sourceId : String) :
    Bool :=
  isSceneSource st sourceId &&
    (sourceId == targetSceneId ||
      reachesB st (cycleFuel st) sourceId targetSceneId)

/-- Fresh scene-item id from the unique-id supply. -/
def freshItemId (st : ScenesState) : String :=
  "item_" ++ toString st.counter

/-- The transform a newly added item starts with. -/
def defaultTransform : ItemTransform :=
  { posX := 0, posY := 0, scaleX := 1, scaleY := 1, rotation := 0,
    crop := { top := 0, bottom := 0, left := 0, right := 0 } }

/-- Modelled from the spec: `Scene.addSource(sourceId)` (section 4.1), which
is not part of the visible sources.  Runs the cycle check when the source is
scene-typed; on refusal the state is returned unchanged and no event is
emitted; on success a new item referencing `sourceId` is prepended to the
scene's node list and `itemAdded` is emitted. -/
def addSourceToScene (st : ScenesState) (sceneId sourceId : String) :
    Option SceneItemRec × ScenesState × List SceneEvent :=
  match getScene st sceneId with
  | none => (none, st, [])
  | some _ =>
      if embedWouldCycle st sceneId sourceId then (none, st, [])
      else
        let item : SceneItemRec :=
          { sceneItemId := freshItemId st, sourceId := sourceId,
            transform := defaultTransform, visible := true, locked := false }
        (some item,
         { st with
            scenes := updateVal st.scenes sceneId
              (fun sc => { sc with nodes := item :: sc.nodes }),
            counter := st.counter + 1 },
         [.itemAdded item.sceneItemId sourceId])

/-- Modelled from the spec: `Scene.removeItem` (section 4.1), which is not
part of the visible sources.  Removes the node with the given (unique) id
from its scene's list and emits `itemRemoved`; unknown ids are a no-op.
Since node ids are unique, removal is realized as a filter over the scene
table. -/
def removeItemFromState (st : ScenesState) (sceneItemId : String) :
    ScenesState × List SceneEvent :=
  match findItem st sceneItemId with
  | none => (st, [])
  | some it =>
      ({ st with
          scenes := st.scenes.map (fun p =>
            (p.1, { p.2 with nodes :=
              p.2.nodes.filter (fun n => n.sceneItemId != sceneItemId) })) },
       [.itemRemoved it.sceneItemId it.sourceId])

/-- Rotation normalization (spec sections 3, 4.2): any numeric value is
reduced modulo 360 into the half-open range `[0, 360)` (the spec\'s
`((r % 360) + 360) % 360`, which for every real input is the floor-based
reduction below). -/
def normalizeRotation (r : ℚ) : ℚ :=
  r - 360 * ⌊r / 360⌋

/-- Crop-field normalization (spec section 4.2): independently clamped to be
nonnegative and rounded to the nearest integer at write time. -/
def normalizeCropField (q : ℚ) : Int :=
  max 0 (round q)

/-- Apply a partial crop patch; omitted fields are left unchanged. -/
def applyCropPatch (c : Crop) (p : CropPatch) : Crop :=
  { top := match p.top with
      | some q => normalizeCropField q
      | none => c.top,
    bottom := match p.bottom with
      | some q => normalizeCropField q
      | none => c.bottom,
    left := match p.left with
      | some q => normalizeCropField q
      | none => c.left,
    right := match p.right with
      | some q => normalizeCropField q
      | none => c.right }

/-- Apply a partial transform patch (spec section 4.2: merge provided
fields, rotation stored post-normalization, crop clamped and rounded). -/
def applyTransformPatch (t : ItemTransform) (p : TransformPatch) :
    ItemTransform :=
  { posX := p.posX.getD t.posX,
    posY := p.posY.getD t.posY,
    scaleX := p.scaleX.getD t.scaleX,
    scaleY := p.scaleY.getD t.scaleY,
    rotation := match p.rotation with
      | some r => normalizeRotation r
      | none => t.rotation,
    crop := match p.crop with
      | some cp => applyCropPatch t.crop cp
      | none => t.crop }

/-- Apply `f` to a node exactly when it carries the given id. -/
def guardItem (sceneItemId : String) (f : SceneItemRec → SceneItemRec)
    (n : SceneItemRec) : SceneItemRec :=
  if n.sceneItemId == sceneItemId then f n else n

/-- Update the item with the given (unique) id wherever it is stored. -/
def updateItemInState (st : ScenesState) (sceneItemId : String)
    (f : SceneItemRec → SceneItemRec) : ScenesState :=
  { st with
      scenes := st.scenes.map (fun p =>
        (p.1, { p.2 with nodes := p.2.nodes.map (guardItem sceneItemId f) })) }

/-- Merge a transform patch into one item. -/
def patchTransform (p : TransformPatch) (n : SceneItemRec) : SceneItemRec :=
  { n with transform := applyTransformPatch n.transform p }

/-- Modelled from the spec: `SceneItem.setTransform` (section 4.2), which is
not part of the visible sources.  Merges the provided fields into the item's
stored transform and emits `itemUpdated`; unknown ids are a no-op. -/
def setTransform (st : ScenesState) (sceneItemId : String)
    (p : TransformPatch) : ScenesState × List SceneEvent :=
  match findItem st sceneItemId with
  | none => (st, [])
  | some _ =>
      (updateItemInState st sceneItemId (patchTransform p),
       [.itemUpdated sceneItemId])

/-- The stored settings of an item: its transform and flags
(`SceneItem.getSettings`). -/
structure ItemSettings where
  transform : ItemTransform
  visible : Bool
  locked : Bool
  deriving DecidableEq

/-- Modelled from the spec: `SceneItem.getSettings`, which is not part of
the visible sources: reads the stored (already normalized) settings. -/
def getItemSettings (n : SceneItemRec) : ItemSettings :=
  { transform := n.transform, visible := n.visible, locked := n.locked }

/-- Modelled from the spec: `SceneItem.setSettings`, which is not part of
the visible sources: writes the settings back (values coming from
`getSettings` are already normalized) and emits `itemUpdated`. -/
def setItemSettings (st : ScenesState) (sceneItemId : String)
    (s : ItemSettings) : ScenesState × List SceneEvent :=
  match findItem st sceneItemId with
  | none => (st, [])
  | some _ =>
      (updateItemInState st sceneItemId
        (fun n => { n with transform := s.transform, visible := s.visible,
                           locked := s.locked }),
       [.itemUpdated sceneItemId])

/-- `ISceneCreateOptions` as used by `ScenesService.createScene`. -/
structure SceneCreateOptions where
  sceneId : Option String := none
  makeActive : Bool := false
  duplicateSourcesFromScene : Option String := none
  deriving DecidableEq

/-- One step of the duplication loop in `ScenesService.createScene`:
`const newItem = newScene.addSource(item.sourceId);
 newItem.setSettings(item.getSettings());`
(the source dereferences `newItem` unconditionally; a refused `addSource`
would be a null dereference there, so the refusal branch only threads the
state through). -/
def dupStep (newSceneId : String) (acc : ScenesState × List SceneEvent)
    (it : SceneItemRec) : ScenesState × List SceneEvent :=
  let r := addSourceToScene acc.1 newSceneId it.sourceId
  match r.1 with
  | none => (r.2.1, acc.2 ++ r.2.2)
  | some newItem =>
      let r2 := setItemSettings r.2.1 newItem.sceneItemId (getItemSettings it)
      (r2.1, acc.2 ++ r.2.2 ++ r2.2)

/-- The `resourceId` built by `ADD_SCENE`: `'Scene' + JSON.stringify([id])`. -/
def sceneResourceId (id : String) : String :=
  "Scene" ++ "[\"" ++ id ++ "\"]"

/-- The duplication phase of `createScene`: when `duplicateSourcesFromScene`
is given, look the template scene up by name and replay a reversed snapshot
of its item list onto the new scene (reversed because `addSource` prepends,
so the copy ends up in the template's order). -/
def dupPhase (newSceneId : String) (od : Option String) (st2 : ScenesState) :
    ScenesState × List SceneEvent :=
  match od with
  | none => (st2, [])
  | some oldName =>
      match getSceneByName st2 oldName with
      | none => (st2, [])
      | some oldScene =>
          (oldScene.nodes.reverse).foldl (dupStep newSceneId) (st2, [])

/-- The optional `makeActive` tail of `createScene`. -/
def activatePhase (makeActive : Bool) (id : String) (st3 : ScenesState) :
    ScenesState × List SceneEvent :=
  if makeActive then
    let r := makeSceneActive st3 id
    (r.2.1, r.2.2)
  else (st3, [])

/-- `ScenesService.createScene`, embedded from the source: allocates an id
(`options.sceneId` or the unique-id supply), runs `ADD_SCENE` (which appends
to `displayOrder` and claims the active pointer only when it is still
empty), registers the scene as a source, optionally replays another scene's
item list onto the new scene (iterating a reversed snapshot), emits
`sceneAdded`, then optionally `makeSceneActive`, and returns
`getSceneByName(name)`. -/
def createScene (st : ScenesState) (name : String)
    (opts : SceneCreateOptions := {}) :
    Option SceneRec × ScenesState × List SceneEvent :=
  let idSt : String × ScenesState :=
    match opts.sceneId with
    | some i => (i, st)
    | none => ("scene_" ++ toString st.counter,
               { st with counter := st.counter + 1 })
  let id := idSt.1
  let st0 := idSt.2
  let newScene : SceneRec :=
    { id := id, name := name, resourceId := sceneResourceId id, nodes := [] }
  let st1 : ScenesState :=
    { st0 with
        scenes := upsert st0.scenes id newScene,
        displayOrder := st0.displayOrder ++ [id],
        activeSceneId :=
          if st0.activeSceneId == "" then id else st0.activeSceneId }
  let st2 : ScenesState :=
    { st1 with
        sources := upsert st1.sources id
          { id := id, name := name, isSceneSource := true } }
  let dup := dupPhase id opts.duplicateSourcesFromScene st2
  let sw := activatePhase opts.makeActive id dup.1
  (getSceneByName sw.1 name, sw.1, dup.2 ++ [.sceneAdded id name] ++ sw.2)

/-- One removal step used by `removeScene`'s two cascade loops. -/
def removeStep (acc : ScenesState × List SceneEvent) (iid : String) :
    ScenesState × List SceneEvent :=
  let r := removeItemFromState acc.1 iid
  (r.1, acc.2 ++ r.2)

/-- One step of `removeScene`'s second loop: remove the snapshot item when
its source is the scene being removed, skip it otherwise. -/
def removeRefsStep (id : String) (acc : ScenesState × List SceneEvent)
    (n : SceneItemRec) : ScenesState × List SceneEvent :=
  if n.sourceId == id then removeStep acc n.sceneItemId else acc

/-- The `REMOVE_SCENE` mutation: drop the scene record and every occurrence
of the id in the display order (lodash `without`). -/
def removeSceneRecord (id : String) (st : ScenesState) : ScenesState :=
  { st with
      scenes := st.scenes.filter (fun p => p.1 != id),
      displayOrder := st.displayOrder.filter (fun x => x != id) }

/-- The active-scene promotion tail of `removeScene`: when the removed scene
was active, activate the first remaining scene (insertion order), if any. -/
def promotePhase (id : String) (st3 : ScenesState) :
    ScenesState × List SceneEvent :=
  if st3.activeSceneId == id then
    match sceneKeys st3 with
    | [] => (st3, [])
    | k :: _ =>
        let r := makeSceneActive st3 k
        (r.2.1, r.2.2)
  else (st3, [])

/-- `ScenesService.removeScene`, embedded from the source: refuses (returning
nothing, mutating nothing, emitting nothing) when `force` is unset and fewer
than two scenes exist; otherwise removes all of the scene's own nodes, then
every node elsewhere whose source is this scene (iterating a snapshot of all
items), then the scene record itself (`REMOVE_SCENE`), then — if the removed
scene was active — activates the first remaining scene, and finally emits
`sceneRemoved` last.  (The source reads `this.state.scenes[id]` before the
cascade; the returned record is that pre-removal snapshot.) -/
def removeScene (st : ScenesState) (id : String) (force : Bool := false) :
    Option SceneRec × ScenesState × List SceneEvent :=
  if !force && st.scenes.length < 2 then (none, st, [])
  else
    match getScene st id with
    | none => (none, st, [])
    | some sceneModel =>
        let acc1 := (sceneModel.nodes.map (fun n => n.sceneItemId)).foldl
          removeStep (st, [])
        let snap := getSceneItems acc1.1
        let acc2 := snap.foldl (removeRefsStep id) acc1
        let st3 := removeSceneRecord id acc2.1
        let sw := promotePhase id st3
        (some sceneModel, sw.1,
         acc2.2 ++ sw.2 ++ [.sceneRemoved sceneModel.id sceneModel.name])

/-- Fresh source id for `createAndAddSource`. -/
def freshSourceId (st : ScenesState) : String :=
  "source_" ++ toString st.counter

/-- Modelled from the spec: `Scene.createAndAddSource(name, type)`, which is
not part of the visible sources: registers a brand-new (non-scene) source
and adds an item referencing it to the scene. -/
def createAndAddSource (st : ScenesState) (sceneId name ty : String) :
    Option SceneItemRec × ScenesState × List SceneEvent :=
  let sid := freshSourceId st
  let st1 : ScenesState :=
    { st with
        sources := upsert st.sources sid
          { id := sid, name := name, isSceneSource := (ty == "scene") },
        counter := st.counter + 1 }
  addSourceToScene st1 sceneId sid

/-- The display name of a source (used to read item names in the tests). -/
def sourceName (st : ScenesState) (sourceId : String) : String :=
  match alookup st.sources sourceId with
  | none => ""
  | some s => s.name

/-- `Scene.getItems` read order: the stored node list. -/
def getItems (st : ScenesState) (sceneId : String) : List SceneItemRec :=
  match getScene st sceneId with
  | none => []
  | some sc => sc.nodes

/-! ### Association-list lemmas -/

theorem alookup_cons {α : Type} (p : String × α) (t : List (String × α))
    (k : String) :
    alookup (p :: t) k = if p.1 = k then some p.2 else alookup t k := by
  by_cases h : p.1 = k <;> simp [alookup, h]

theorem alookup_append {α : Type} (l l' : List (String × α)) (k : String)
    (h : alookup l k = none) :
    alookup (l ++ l') k = alookup l' k := by
  induction l with
  | nil => rfl
  | cons p t ih =>
      rw [alookup_cons] at h
      by_cases hp : p.1 = k
      · rw [if_pos hp] at h; exact absurd h (by simp)
      · rw [if_neg hp] at h
        rw [List.cons_append, alookup_cons, if_neg hp]
        exact ih h

theorem alookup_updateVal {α : Type} (l : List (String × α)) (k k' : String)
    (f : α → α) :
    alookup (updateVal l k f) k' =
      if k' = k then (alookup l k').map f else alookup l k' := by
  induction l with
  | nil => by_cases h : k' = k <;> simp [updateVal, alookup, h]
  | cons p t ih =>
      unfold updateVal at ih ⊢
      by_cases h1 : p.1 = k <;> by_cases h2 : p.1 = k' <;>
        by_cases h3 : k' = k <;>
          simp_all [alookup_cons]

theorem upsert_absent {α : Type} (l : List (String × α)) (k : String) (v : α)
    (h : alookup l k = none) :
    upsert l k v = l ++ [(k, v)] := by
  induction l with
  | nil => rfl
  | cons p t ih =>
      rw [alookup_cons] at h
      by_cases hp : p.1 = k
      · rw [if_pos hp] at h; exact absurd h (by simp)
      · rw [if_neg hp] at h
        simp [upsert, hp, ih h]

theorem alookup_upsert_self {α : Type} (l : List (String × α)) (k : String)
    (v : α) :
    alookup (upsert l k v) k = some v := by
  induction l with
  | nil => simp [upsert, alookup]
  | cons p t ih =>
      by_cases hp : p.1 = k
      · simp [upsert, hp, alookup_cons]
      · simp [upsert, hp, alookup_cons, ih]

theorem alookup_upsert_other {α : Type} (l : List (String × α))
    (k k' : String) (v : α) (h : k' ≠ k) :
    alookup (upsert l k v) k' = alookup l k' := by
  have hkk : ¬ (k = k') := fun hc => h (Eq.symm hc)
  induction l with
  | nil => simp [upsert, alookup, hkk]
  | cons p t ih =>
      by_cases hp : p.1 = k
      · have hp2 : ¬ (p.1 = k') := by rw [hp]; exact hkk
        simp [upsert, hp, alookup_cons, hkk, hp2]
      · simp [upsert, hp, alookup_cons, ih]

/-! ### Reads after an item update -/

theorem getScene_updateVal (st : ScenesState) (k k' : String)
    (f : SceneRec → SceneRec) :
    getScene { st with scenes := updateVal st.scenes k f } k' =
      if k' = k then (getScene st k').map f else getScene st k' := by
  unfold getScene
  exact alookup_updateVal st.scenes k k' f

/-- `flatMap` commutes with a pointwise `map`. -/
theorem flatMap_map_of_pointwise {α β γ : Type} (l : List α) (F : α → List β)
    (g : β → γ) (F2 : α → List γ) (h : ∀ a, F2 a = (F a).map g) :
    l.flatMap F2 = (l.flatMap F).map g := by
  induction l with
  | nil => rfl
  | cons a t ih => simp [List.flatMap_cons, h a, ih]

/-- `find?` through a map that rewrites only the nodes matching an id,
provided the rewrite preserves the id. -/
theorem find?_map_matching (l : List SceneItemRec) (iid : String)
    (f : SceneItemRec → SceneItemRec)
    (hf : ∀ n, (f n).sceneItemId = n.sceneItemId) :
    (l.map (guardItem iid f)).find? (fun n => n.sceneItemId == iid) =
      (l.find? (fun n => n.sceneItemId == iid)).map (guardItem iid f) := by
  induction l with
  | nil => rfl
  | cons n t ih =>
      by_cases h : n.sceneItemId = iid
      · have h2 : (guardItem iid f n).sceneItemId = iid := by
          simp [guardItem, h, hf]
        simp [List.find?_cons, List.map_cons, h2, h]
      · have h2 : (guardItem iid f n).sceneItemId = n.sceneItemId := by
          simp [guardItem, h]
        simp [List.find?_cons, List.map_cons, h2, h, ih]

theorem getScene_mapNodes (st : ScenesState)
    (g : List SceneItemRec → List SceneItemRec) (d : String) :
    alookup (st.scenes.map (fun p => (p.1, { p.2 with nodes := g p.2.nodes })))
        d =
      (getScene st d).map (fun sc => { sc with nodes := g sc.nodes }) := by
  unfold getScene
  induction st.scenes with
  | nil => rfl
  | cons p t ih =>
      by_cases h : p.1 = d
      · simp [alookup_cons, h]
      · simpa [alookup_cons, h] using ih

theorem getSceneItems_updateItem (st : ScenesState) (iid : String)
    (f : SceneItemRec → SceneItemRec) :
    getSceneItems (updateItemInState st iid f) =
      (getSceneItems st).map (guardItem iid f) := by
  unfold getSceneItems updateItemInState
  apply flatMap_map_of_pointwise
  intro d
  have h1 : getScene
      { st with scenes := st.scenes.map (fun p =>
          (p.1, { p.2 with nodes := p.2.nodes.map (guardItem iid f) })) } d =
      (getScene st d).map (fun sc =>
        { sc with nodes := sc.nodes.map (guardItem iid f) }) :=
    getScene_mapNodes st (fun nodes => nodes.map (guardItem iid f)) d
  rw [h1]
  cases getScene st d <;> rfl

theorem findItem_updateItem (st : ScenesState) (iid : String)
    (f : SceneItemRec → SceneItemRec)
    (hf : ∀ n, (f n).sceneItemId = n.sceneItemId) :
    findItem (updateItemInState st iid f) iid =
      (findItem st iid).map f := by
  unfold findItem
  rw [getSceneItems_updateItem st iid f,
      find?_map_matching (getSceneItems st) iid f hf]
  cases h : (getSceneItems st).find? (fun n => n.sceneItemId == iid) with
  | none => rfl
  | some n =>
      have h2 := List.find?_some h
      simp [guardItem, h2]

/-! ### Preservation lemmas for the duplication phase -/

/-- Item-lifecycle events (as opposed to scene-lifecycle events). -/
def isItemEvent : SceneEvent → Bool
  | .itemAdded _ _ => true
  | .itemRemoved _ _ => true
  | .itemUpdated _ => true
  | _ => false

/-- Scene-switched events. -/
def isSwitchEvent : SceneEvent → Bool
  | .sceneSwitched _ _ => true
  | _ => false

/-- Identity and name of a scene record. -/
def sceneIdName (sc : SceneRec) : String × String :=
  (sc.id, sc.name)

theorem addSource_preserves (st : ScenesState) (t s : String) :
    (∀ x, (getScene (addSourceToScene st t s).2.1 x).map sceneIdName =
      (getScene st x).map sceneIdName) ∧
    (addSourceToScene st t s).2.1.activeSceneId = st.activeSceneId ∧
    (addSourceToScene st t s).2.1.displayOrder = st.displayOrder ∧
    (addSourceToScene st t s).2.1.sources = st.sources ∧
    ∀ e ∈ (addSourceToScene st t s).2.2, isItemEvent e = true := by
  unfold addSourceToScene
  cases hg : getScene st t with
  | none => exact ⟨fun x => rfl, rfl, rfl, rfl, by intro e he; simp at he⟩
  | some sc =>
      by_cases hc : embedWouldCycle st t s
      · rw [if_pos hc]
        exact ⟨fun x => rfl, rfl, rfl, rfl, by intro e he; simp at he⟩
      · rw [if_neg hc]
        dsimp only
        refine ⟨fun x => ?_, rfl, rfl, rfl, ?_⟩
        · unfold getScene
          rw [alookup_updateVal]
          by_cases hx : x = t
          · rw [if_pos hx]
            cases alookup st.scenes x <;> rfl
          · rw [if_neg hx]
        · intro e he
          simp only [List.mem_singleton] at he
          rw [he]; rfl

theorem setItemSettings_preserves (st : ScenesState) (iid : String)
    (s : ItemSettings) :
    (∀ x, (getScene (setItemSettings st iid s).1 x).map sceneIdName =
      (getScene st x).map sceneIdName) ∧
    (setItemSettings st iid s).1.activeSceneId = st.activeSceneId ∧
    (setItemSettings st iid s).1.displayOrder = st.displayOrder ∧
    (setItemSettings st iid s).1.sources = st.sources ∧
    ∀ e ∈ (setItemSettings st iid s).2, isItemEvent e = true := by
  unfold setItemSettings
  cases hg : findItem st iid with
  | none => exact ⟨fun x => rfl, rfl, rfl, rfl, by intro e he; simp at he⟩
  | some it =>
      refine ⟨fun x => ?_, rfl, rfl, rfl, ?_⟩
      · show (alookup ((updateItemInState st iid _).scenes) x).map sceneIdName
          = _
        unfold updateItemInState
        rw [getScene_mapNodes]
        cases getScene st x <;> rfl
      · intro e he
        simp only [List.mem_singleton] at he
        rw [he]; rfl

theorem dupStep_preserves (nid : String) (acc : ScenesState × List SceneEvent)
    (it : SceneItemRec) :
    (∀ x, (getScene (dupStep nid acc it).1 x).map sceneIdName =
      (getScene acc.1 x).map sceneIdName) ∧
    (dupStep nid acc it).1.activeSceneId = acc.1.activeSceneId ∧
    (dupStep nid acc it).1.displayOrder = acc.1.displayOrder ∧
    (dupStep nid acc it).1.sources = acc.1.sources ∧
    ∀ e ∈ (dupStep nid acc it).2, e ∈ acc.2 ∨ isItemEvent e = true := by
  unfold dupStep
  dsimp only
  obtain ⟨ha1, ha2, ha3, ha4, ha5⟩ := addSource_preserves acc.1 nid it.sourceId
  cases hr : (addSourceToScene acc.1 nid it.sourceId).1 with
  | none =>
      dsimp only
      refine ⟨ha1, ha2, ha3, ha4, ?_⟩
      intro e he
      rw [List.mem_append] at he
      cases he with
      | inl h => exact Or.inl h
      | inr h => exact Or.inr (ha5 e h)
  | some newItem =>
      dsimp only
      obtain ⟨hb1, hb2, hb3, hb4, hb5⟩ := setItemSettings_preserves
        (addSourceToScene acc.1 nid it.sourceId).2.1 newItem.sceneItemId
        (getItemSettings it)
      refine ⟨fun x => (hb1 x).trans (ha1 x), hb2.trans ha2, hb3.trans ha3,
        hb4.trans ha4, ?_⟩
      intro e he
      simp only [List.append_assoc, List.mem_append] at he
      rcases he with h | h | h
      · exact Or.inl h
      · exact Or.inr (ha5 e h)
      · exact Or.inr (hb5 e h)

theorem dupFold_preserves (nid : String) (items : List SceneItemRec)
    (st : ScenesState) (evs : List SceneEvent) :
    (∀ x, (getScene (items.foldl (dupStep nid) (st, evs)).1 x).map sceneIdName
      = (getScene st x).map sceneIdName) ∧
    (items.foldl (dupStep nid) (st, evs)).1.activeSceneId =
      st.activeSceneId ∧
    (items.foldl (dupStep nid) (st, evs)).1.displayOrder = st.displayOrder ∧
    (items.foldl (dupStep nid) (st, evs)).1.sources = st.sources ∧
    ∀ e ∈ (items.foldl (dupStep nid) (st, evs)).2,
      e ∈ evs ∨ isItemEvent e = true := by
  induction items generalizing st evs with
  | nil => exact ⟨fun x => rfl, rfl, rfl, rfl, fun e he => Or.inl he⟩
  | cons it rest ih =>
      obtain ⟨h1, h2, h3, h4, h5⟩ := dupStep_preserves nid (st, evs) it
      obtain ⟨g1, g2, g3, g4, g5⟩ := ih (dupStep nid (st, evs) it).1
        (dupStep nid (st, evs) it).2
      rw [List.foldl_cons]
      refine ⟨fun x => (g1 x).trans (h1 x), g2.trans h2, g3.trans h3,
        g4.trans h4, ?_⟩
      intro e he
      cases g5 e he with
      | inl h => exact h5 e h
      | inr h => exact Or.inr h

theorem dupPhase_preserves (nid : String) (od : Option String)
    (st2 : ScenesState) :
    (∀ x, (getScene (dupPhase nid od st2).1 x).map sceneIdName =
      (getScene st2 x).map sceneIdName) ∧
    (dupPhase nid od st2).1.activeSceneId = st2.activeSceneId ∧
    (dupPhase nid od st2).1.displayOrder = st2.displayOrder ∧
    (dupPhase nid od st2).1.sources = st2.sources ∧
    ∀ e ∈ (dupPhase nid od st2).2, isItemEvent e = true := by
  unfold dupPhase
  cases od with
  | none => exact ⟨fun x => rfl, rfl, rfl, rfl, by intro e he; simp at he⟩
  | some oldName =>
      dsimp only
      cases getSceneByName st2 oldName with
      | none => exact ⟨fun x => rfl, rfl, rfl, rfl, by intro e he; simp at he⟩
      | some oldScene =>
          obtain ⟨h1, h2, h3, h4, h5⟩ := dupFold_preserves nid
            oldScene.nodes.reverse st2 []
          refine ⟨h1, h2, h3, h4, ?_⟩
          intro e he
          cases h5 e he with
          | inl h => exact absurd h (by simp)
          | inr h => exact h

/-! ### Concrete states used by witnesses and counterexamples -/

/-- The initial `ScenesService` state (`initialState` in the source). -/
def emptyState : ScenesState :=
  { activeSceneId := "", displayOrder := [], scenes := [], sources := [],
    counter := 0 }

/-- One scene named `Scene` (the default-scene situation of the tests). -/
def demoScene : ScenesState :=
  (createScene emptyState "Scene").2.1

/-- `demoScene` after `createAndAddSource('Image1', 'image_source')`. -/
def demoOne : ScenesState :=
  (createAndAddSource demoScene "scene_0" "Image1" "image_source").2.1

/-- `demoOne` after `createAndAddSource('Image2', 'image_source')`. -/
def demoTwo : ScenesState :=
  (createAndAddSource demoOne "scene_0" "Image2" "image_source").2.1

/-! ### C2: last-scene removal guard -/

/-- C2: when exactly one scene exists, `removeScene(id)` without force
performs no mutation: it returns the refusal value, leaves the state (hence
the scene count and every node list) unchanged, and emits no event. -/
theorem removeScene_last_scene_guard (st : ScenesState) (id : String)
    (h : st.scenes.length = 1) :
    removeScene st id false = (none, st, []) := by
  unfold removeScene
  simp [h]

/-- Witness for C2 at a concrete one-scene state. -/
theorem removeScene_last_scene_guard_witness :
    demoScene.scenes.length = 1 ∧
    removeScene demoScene "scene_0" false = (none, demoScene, []) :=
  ⟨by decide, removeScene_last_scene_guard demoScene "scene_0" (by decide)⟩

/-! ### C3: setSceneOrder performs no permutation validation -/

/-- C3 counterexample: `["B"]` is not a permutation of the stored top-level
ids of `demoScene` (`["scene_0"]`), yet `setSceneOrder` is not rejected: it
replaces the stored display order. -/
theorem setSceneOrder_not_validated_cex :
    ¬ List.Perm ["B"] demoScene.displayOrder ∧
    (setSceneOrder demoScene ["B"]).displayOrder = ["B"] ∧
    (setSceneOrder demoScene ["B"]).displayOrder ≠ demoScene.displayOrder := by
  refine ⟨by decide, rfl, by decide⟩

/-- C3 amended: `setSceneOrder(ids)` unconditionally replaces the stored
display order with `ids` (the source `SET_SCENE_ORDER` performs no
permutation check and never rejects). -/
theorem setSceneOrder_unconditional (st : ScenesState) (order : List String) :
    setSceneOrder st order = { st with displayOrder := order } := rfl

/-! ### C7: rotation normalization -/

/-- C7: for any rational `r` (integer or fractional),
`setTransform({rotation: r})` followed by a read yields the reduction of `r`
modulo 360 into `[0, 360)`: the stored value is `r - 360 * ⌊r / 360⌋`, lies
in `[0, 360)`, and differs from `r` by an integer multiple of 360. -/
theorem setTransform_rotation_normalized (st : ScenesState) (iid : String)
    (r : ℚ) (it : SceneItemRec) (h : findItem st iid = some it) :
    ∃ it', findItem (setTransform st iid { rotation := some r }).1 iid =
        some it' ∧
      it'.transform.rotation = r - 360 * ⌊r / 360⌋ ∧
      (0 ≤ it'.transform.rotation ∧ it'.transform.rotation < 360) ∧
      ∃ k : ℤ, r - it'.transform.rotation = 360 * k := by
  have hset : setTransform st iid { rotation := some r } =
      (updateItemInState st iid (patchTransform { rotation := some r }),
       [SceneEvent.itemUpdated iid]) := by
    unfold setTransform
    rw [h]
  have hup := findItem_updateItem st iid
    (patchTransform { rotation := some r }) (fun n => rfl)
  have hx1 : ((⌊r / 360⌋ : ℚ)) ≤ r / 360 := Int.floor_le _
  have hx2 : r / 360 < ⌊r / 360⌋ + 1 := Int.lt_floor_add_one _
  have h360 : (0:ℚ) < 360 := by norm_num
  have hb1 : ((⌊r / 360⌋ : ℚ)) * 360 ≤ r := (le_div_iff₀ h360).mp hx1
  have hb2 : r < ((⌊r / 360⌋ : ℚ) + 1) * 360 := (div_lt_iff₀ h360).mp hx2
  refine ⟨patchTransform { rotation := some r } it, ?_, ?_, ⟨?_, ?_⟩, ?_⟩
  · rw [hset]
    show findItem (updateItemInState st iid _) iid = _
    rw [hup, h]
    rfl
  · simp only [patchTransform, applyTransformPatch, normalizeRotation]
  · simp only [patchTransform, applyTransformPatch, normalizeRotation]
    linarith
  · simp only [patchTransform, applyTransformPatch, normalizeRotation]
    linarith
  · refine ⟨⌊r / 360⌋, ?_⟩
    simp only [patchTransform, applyTransformPatch, normalizeRotation]
    ring

/-- Witness for C7: on a concrete item, rotation 450 reads back as 90,
−10 reads back as 350, and the fractional 450.5 reads back as 90.5. -/
theorem setTransform_rotation_normalized_witness :
    (∃ it', findItem (setTransform demoTwo "item_4"
        { rotation := some 450 }).1 "item_4" = some it' ∧
      it'.transform.rotation = 450 - 360 * ⌊(450:ℚ) / 360⌋ ∧
      (0 ≤ it'.transform.rotation ∧ it'.transform.rotation < 360) ∧
      ∃ k : ℤ, 450 - it'.transform.rotation = 360 * k) ∧
    (∃ it', findItem (setTransform demoTwo "item_4"
        { rotation := some (-10) }).1 "item_4" = some it' ∧
      it'.transform.rotation = -10 - 360 * ⌊(-10:ℚ) / 360⌋ ∧
      (0 ≤ it'.transform.rotation ∧ it'.transform.rotation < 360) ∧
      ∃ k : ℤ, -10 - it'.transform.rotation = 360 * k) ∧
    (∃ it', findItem (setTransform demoTwo "item_4"
        { rotation := some (901/2) }).1 "item_4" = some it' ∧
      it'.transform.rotation = 901/2 - 360 * ⌊(901/2:ℚ) / 360⌋ ∧
      (0 ≤ it'.transform.rotation ∧ it'.transform.rotation < 360) ∧
      ∃ k : ℤ, 901/2 - it'.transform.rotation = 360 * k) ∧
    (450:ℚ) - 360 * ⌊(450:ℚ) / 360⌋ = 90 ∧
    (-10:ℚ) - 360 * ⌊(-10:ℚ) / 360⌋ = 350 ∧
    (901/2:ℚ) - 360 * ⌊(901/2:ℚ) / 360⌋ = 181/2 :=
  ⟨setTransform_rotation_normalized demoTwo "item_4" 450
      { sceneItemId := "item_4", sourceId := "source_3",
        transform := defaultTransform, visible := true, locked := false }
      (by decide),
   setTransform_rotation_normalized demoTwo "item_4" (-10)
      { sceneItemId := "item_4", sourceId := "source_3",
        transform := defaultTransform, visible := true, locked := false }
      (by decide),
   setTransform_rotation_normalized demoTwo "item_4" (901/2)
      { sceneItemId := "item_4", sourceId := "source_3",
        transform := defaultTransform, visible := true, locked := false }
      (by decide),
   by rw [show ⌊(450:ℚ) / 360⌋ = 1 by norm_num [Int.floor_eq_iff]]; norm_num,
   by rw [show ⌊(-10:ℚ) / 360⌋ = -1 by norm_num [Int.floor_eq_iff]]; norm_num,
   by rw [show ⌊(901/2:ℚ) / 360⌋ = 1 by norm_num [Int.floor_eq_iff]]; norm_num⟩

/-! ### C8: crop clamping and rounding at write time -/

/-- C8: each crop field passed to `setTransform` is independently clamped to
be nonnegative and rounded to the nearest integer at write time; omitted
fields are unchanged; the stored values are what a later read returns. -/
theorem setTransform_crop_write_time (st : ScenesState) (iid : String)
    (cp : CropPatch) (it : SceneItemRec) (h : findItem st iid = some it) :
    ∃ it', findItem (setTransform st iid { crop := some cp }).1 iid =
        some it' ∧
      it'.transform.crop.top =
        (cp.top.map normalizeCropField).getD it.transform.crop.top ∧
      it'.transform.crop.bottom =
        (cp.bottom.map normalizeCropField).getD it.transform.crop.bottom ∧
      it'.transform.crop.left =
        (cp.left.map normalizeCropField).getD it.transform.crop.left ∧
      it'.transform.crop.right =
        (cp.right.map normalizeCropField).getD it.transform.crop.right ∧
      (∀ q : ℚ, normalizeCropField q = max 0 (round q) ∧
        0 ≤ normalizeCropField q ∧
        (0 ≤ q → |(normalizeCropField q : ℚ) - q| ≤ 1 / 2)) := by
  have hset : setTransform st iid { crop := some cp } =
      (updateItemInState st iid (patchTransform { crop := some cp }),
       [SceneEvent.itemUpdated iid]) := by
    unfold setTransform
    rw [h]
  have hup := findItem_updateItem st iid
    (patchTransform { crop := some cp }) (fun n => rfl)
  refine ⟨patchTransform { crop := some cp } it, ?_, ?_, ?_, ?_, ?_, ?_⟩
  · rw [hset]
    show findItem (updateItemInState st iid _) iid = _
    rw [hup, h]
    rfl
  · show (applyCropPatch it.transform.crop cp).top = _
    unfold applyCropPatch
    cases cp.top <;> rfl
  · show (applyCropPatch it.transform.crop cp).bottom = _
    unfold applyCropPatch
    cases cp.bottom <;> rfl
  · show (applyCropPatch it.transform.crop cp).left = _
    unfold applyCropPatch
    cases cp.left <;> rfl
  · show (applyCropPatch it.transform.crop cp).right = _
    unfold applyCropPatch
    cases cp.right <;> rfl
  · intro q
    refine ⟨rfl, le_max_left 0 (round q), ?_⟩
    intro hq
    have hr : 0 ≤ round q := by
      rw [round_eq]
      exact Int.floor_nonneg.mpr (by linarith)
    have hm : normalizeCropField q = round q := by
      unfold normalizeCropField
      exact max_eq_right hr
    rw [hm, abs_sub_comm]
    exact abs_sub_round q

/-- Witness for C8: the concrete patch
`{top: 1.2, bottom: 5.6, left: 7.1, right: 10}` stores `{1, 6, 7, 10}`. -/
theorem setTransform_crop_write_time_witness :
    (∃ it', findItem (setTransform demoTwo "item_4"
        { crop := some { top := some 1.2, bottom := some 5.6,
                         left := some 7.1, right := some 10 } }).1 "item_4" =
        some it' ∧
      it'.transform.crop.top =
        ((some (1.2:ℚ)).map normalizeCropField).getD 0 ∧
      it'.transform.crop.bottom =
        ((some (5.6:ℚ)).map normalizeCropField).getD 0 ∧
      it'.transform.crop.left =
        ((some (7.1:ℚ)).map normalizeCropField).getD 0 ∧
      it'.transform.crop.right =
        ((some (10:ℚ)).map normalizeCropField).getD 0 ∧
      (∀ q : ℚ, normalizeCropField q = max 0 (round q) ∧
        0 ≤ normalizeCropField q ∧
        (0 ≤ q → |(normalizeCropField q : ℚ) - q| ≤ 1 / 2))) ∧
    normalizeCropField 1.2 = 1 ∧ normalizeCropField 5.6 = 6 ∧
    normalizeCropField 7.1 = 7 ∧ normalizeCropField 10 = 10 := by
  constructor
  · exact setTransform_crop_write_time demoTwo "item_4"
      { top := some 1.2, bottom := some 5.6, left := some 7.1,
        right := some 10 }
      { sceneItemId := "item_4", sourceId := "source_3",
        transform := defaultTransform, visible := true, locked := false }
      (by decide)
  · refine ⟨?_, ?_, ?_, ?_⟩ <;> norm_num [normalizeCropField, round_eq]

/-! ### createScene: allocation and name handling -/

/-- The scene id allocated by `createScene` when `options.sceneId` is not
given (`'scene_' + getUniqueId`). -/
def newSceneId (st : ScenesState) : String :=
  "scene_" ++ toString st.counter

/-- The record `ADD_SCENE` stores for a fresh scene. -/
def mkSceneRec (id name : String) : SceneRec :=
  { id := id, name := name, resourceId := sceneResourceId id, nodes := [] }

theorem getSceneByName_concat (st : ScenesState) (l : List (String × SceneRec))
    (k : String) (sc : SceneRec) (name : String)
    (hsc : st.scenes = l ++ [(k, sc)]) (hn : sc.name = name) :
    getSceneByName st name = some sc := by
  unfold getSceneByName
  rw [hsc, List.filter_append, List.map_append]
  have hpred : List.filter (fun p => p.2.name == name) [(k, sc)] = [(k, sc)] :=
    by simp [List.filter, hn]
  rw [hpred]
  exact List.getLast?_concat _

/-- C4 counterexample: `createScene('')` on the initial state does not fail
softly: it returns the created scene (not null/false), registers one scene,
and emits a scene-added event. -/
theorem createScene_empty_name_cex :
    (createScene emptyState "").1.isSome = true ∧
    (createScene emptyState "").2.1.scenes.length = 1 ∧
    (createScene emptyState "").2.2 = [SceneEvent.sceneAdded "scene_0" ""] :=
  ⟨rfl, rfl, rfl⟩

/-- C4 amended: `createScene` performs no name validation.  Called with an
empty name (and a fresh generated id), it registers a new scene named `""`,
emits a scene-added event for it, and returns the created scene rather than
null/false. -/
theorem createScene_no_name_validation (st : ScenesState)
    (h : getScene st (newSceneId st) = none) :
    (createScene st "" {}).1 = some (mkSceneRec (newSceneId st) "") ∧
    (createScene st "" {}).2.1.scenes =
      st.scenes ++ [(newSceneId st, mkSceneRec (newSceneId st) "")] ∧
    (createScene st "" {}).2.2 =
      [SceneEvent.sceneAdded (newSceneId st) ""] := by
  have hup : upsert st.scenes (newSceneId st) (mkSceneRec (newSceneId st) "")
      = st.scenes ++ [(newSceneId st, mkSceneRec (newSceneId st) "")] :=
    upsert_absent _ _ _ h
  unfold createScene dupPhase activatePhase
  dsimp only
  refine ⟨?_, ?_, ?_⟩
  · exact getSceneByName_concat _ st.scenes (newSceneId st)
      (mkSceneRec (newSceneId st) "") "" hup rfl
  · exact hup
  · rfl

/-- Witness for the amended C4 at the initial state. -/
theorem createScene_no_name_validation_witness :
    (createScene emptyState "" {}).1 =
      some (mkSceneRec (newSceneId emptyState) "") ∧
    (createScene emptyState "" {}).2.1.scenes =
      emptyState.scenes ++
        [(newSceneId emptyState, mkSceneRec (newSceneId emptyState) "")] ∧
    (createScene emptyState "" {}).2.2 =
      [SceneEvent.sceneAdded (newSceneId emptyState) ""] :=
  createScene_no_name_validation emptyState (by decide)

/-! ### C9: read order of a scene's items -/

/-- C9: `addSource` prepends: whenever an item is accepted into a scene, the
scene's read order (`getItems`) is the new item followed by the previous
items — most-recently-added first, for every scene.  Concretely, adding
`Image1` then `Image2` to the empty default scene reads back as
`[Image2, Image1]`. -/
theorem getItems_most_recent_first :
    (∀ st t s item st2 evs,
        addSourceToScene st t s = (some item, st2, evs) →
        getItems st2 t = item :: getItems st t) ∧
    (getItems demoTwo "scene_0").map (fun n => sourceName demoTwo n.sourceId)
      = ["Image2", "Image1"] := by
  constructor
  · intro st t s item st2 evs hAdd
    unfold addSourceToScene at hAdd
    cases hg : getScene st t with
    | none => rw [hg] at hAdd; simp at hAdd
    | some sc =>
        rw [hg] at hAdd
        by_cases hc : embedWouldCycle st t s
        · rw [if_pos hc] at hAdd
          simp at hAdd
        · rw [if_neg hc] at hAdd
          dsimp only at hAdd
          rw [Prod.mk.injEq, Prod.mk.injEq, Option.some.injEq] at hAdd
          obtain ⟨hitem, hst, _⟩ := hAdd
          unfold getScene at hg
          rw [← hst]
          unfold getItems getScene
          dsimp only
          rw [alookup_updateVal, if_pos rfl, hg]
          dsimp only
          rw [hitem]
          rfl
  · rfl

/-- The intermediate state inside
`createAndAddSource demoOne 'Image2' 'image_source'`, right after the new
source is registered and before the item is inserted. -/
def c9Mid : ScenesState :=
  { demoOne with
      sources := upsert demoOne.sources (freshSourceId demoOne)
        { id := freshSourceId demoOne, name := "Image2",
          isSceneSource := ("image_source" == "scene") },
      counter := demoOne.counter + 1 }

/-- Witness for C9: the accepted insertion of `Image2` prepends the new item
in front of `Image1`. -/
theorem getItems_most_recent_first_witness :
    getItems demoTwo "scene_0" =
      { sceneItemId := "item_4", sourceId := "source_3",
        transform := defaultTransform, visible := true, locked := false } ::
        getItems c9Mid "scene_0" :=
  getItems_most_recent_first.1 c9Mid "scene_0" "source_3"
    { sceneItemId := "item_4", sourceId := "source_3",
      transform := defaultTransform, visible := true, locked := false }
    demoTwo [SceneEvent.itemAdded "item_4" "source_3"] (by decide)

/-! ### C10: the active pointer across createScene -/

theorem createScene_analysis (st : ScenesState) (name : String)
    (opts : SceneCreateOptions) :
    ∃ st3 dupEvs,
      (∀ e ∈ dupEvs, isItemEvent e = true) ∧
      st3.activeSceneId = (if st.activeSceneId = ""
        then opts.sceneId.getD (newSceneId st) else st.activeSceneId) ∧
      (getScene st3 (opts.sceneId.getD (newSceneId st))).map sceneIdName =
        some (opts.sceneId.getD (newSceneId st), name) ∧
      createScene st name opts =
        (getSceneByName (activatePhase opts.makeActive
            (opts.sceneId.getD (newSceneId st)) st3).1 name,
         (activatePhase opts.makeActive
            (opts.sceneId.getD (newSceneId st)) st3).1,
         dupEvs ++
           [SceneEvent.sceneAdded (opts.sceneId.getD (newSceneId st)) name]
           ++ (activatePhase opts.makeActive
            (opts.sceneId.getD (newSceneId st)) st3).2) := by
  cases hsid : opts.sceneId with
  | none =>
      simp only [hsid, Option.getD, newSceneId]
      unfold createScene
      rw [hsid]
      dsimp only
      refine ⟨_, _, (dupPhase_preserves _
        opts.duplicateSourcesFromScene _).2.2.2.2, ?_, ?_, rfl⟩
      · rw [(dupPhase_preserves _ opts.duplicateSourcesFromScene _).2.1]
        show (if (st.activeSceneId == "") = true then _ else _) = _
        by_cases ha : st.activeSceneId = "" <;> simp [ha]
      · rw [(dupPhase_preserves _ opts.duplicateSourcesFromScene _).1]
        show (alookup (upsert _ _ _) _).map sceneIdName = _
        rw [alookup_upsert_self]
        rfl
  | some sid =>
      simp only [hsid, Option.getD]
      unfold createScene
      rw [hsid]
      dsimp only
      refine ⟨_, _, (dupPhase_preserves _
        opts.duplicateSourcesFromScene _).2.2.2.2, ?_, ?_, rfl⟩
      · rw [(dupPhase_preserves _ opts.duplicateSourcesFromScene _).2.1]
        show (if (st.activeSceneId == "") = true then _ else _) = _
        by_cases ha : st.activeSceneId = "" <;> simp [ha]
      · rw [(dupPhase_preserves _ opts.duplicateSourcesFromScene _).1]
        show (alookup (upsert _ _ _) _).map sceneIdName = _
        rw [alookup_upsert_self]
        rfl

theorem isItemEvent_not_switch (e : SceneEvent)
    (h : isItemEvent e = true) : isSwitchEvent e = false := by
  cases e <;> simp_all [isItemEvent, isSwitchEvent]

/-- C10: creating the very first scene (empty state, empty active pointer)
makes it active without emitting a scene-switched event; creating a later
scene leaves the active pointer untouched unless `makeActive` is passed, in
which case the new scene becomes active and `makeSceneActive` emits
scene-switched. -/
theorem createScene_active_pointer (st : ScenesState) (name : String)
    (opts : SceneCreateOptions) :
    (st.scenes = [] → st.activeSceneId = "" → opts.makeActive = false →
      (createScene st name opts).2.1.activeSceneId =
        opts.sceneId.getD (newSceneId st) ∧
      ∀ e ∈ (createScene st name opts).2.2, isSwitchEvent e = false) ∧
    (st.activeSceneId ≠ "" → opts.makeActive = false →
      (createScene st name opts).2.1.activeSceneId = st.activeSceneId ∧
      ∀ e ∈ (createScene st name opts).2.2, isSwitchEvent e = false) ∧
    (opts.makeActive = true →
      (createScene st name opts).2.1.activeSceneId =
        opts.sceneId.getD (newSceneId st) ∧
      SceneEvent.sceneSwitched (opts.sceneId.getD (newSceneId st)) name ∈
        (createScene st name opts).2.2) := by
  obtain ⟨st3, dupEvs, hitem, hact, hname, heq⟩ :=
    createScene_analysis st name opts
  refine ⟨?_, ?_, ?_⟩
  · intro _ ha hma
    rw [heq, hma]
    unfold activatePhase
    rw [if_neg (by simp)]
    constructor
    · show st3.activeSceneId = _
      rw [hact, if_pos ha]
    · intro e he
      simp only [List.append_nil, List.mem_append, List.mem_singleton] at he
      cases he with
      | inl h => exact isItemEvent_not_switch e (hitem e h)
      | inr h => rw [h]; rfl
  · intro ha hma
    rw [heq, hma]
    unfold activatePhase
    rw [if_neg (by simp)]
    constructor
    · show st3.activeSceneId = _
      rw [hact, if_neg ha]
    · intro e he
      simp only [List.append_nil, List.mem_append, List.mem_singleton] at he
      cases he with
      | inl h => exact isItemEvent_not_switch e (hitem e h)
      | inr h => rw [h]; rfl
  · intro hma
    rw [heq, hma]
    cases hg3 : getScene st3 (opts.sceneId.getD (newSceneId st)) with
    | none => rw [hg3] at hname; simp at hname
    | some sc3 =>
        rw [hg3] at hname
        have hname2 : sceneIdName sc3 =
            (opts.sceneId.getD (newSceneId st), name) := by
          simpa using hname
        have hid3 : sc3.id = opts.sceneId.getD (newSceneId st) :=
          congrArg Prod.fst hname2
        have hnm3 : sc3.name = name := congrArg Prod.snd hname2
        unfold activatePhase makeSceneActive
        rw [if_pos rfl, hg3]
        dsimp only
        refine ⟨rfl, ?_⟩
        rw [hid3, hnm3]
        simp

/-- Witness for C10: the very first scene (empty state) becomes active with
no scene-switched event; a second scene created with `makeActive` becomes
active and scene-switched is emitted; without `makeActive` the pointer stays. -/
theorem createScene_active_pointer_witness :
    ((createScene emptyState "Scene" {}).2.1.activeSceneId =
        (({} : SceneCreateOptions).sceneId.getD (newSceneId emptyState)) ∧
      ∀ e ∈ (createScene emptyState "Scene" {}).2.2,
        isSwitchEvent e = false) ∧
    ((createScene demoScene "Scene2" {}).2.1.activeSceneId =
        demoScene.activeSceneId ∧
      ∀ e ∈ (createScene demoScene "Scene2" {}).2.2,
        isSwitchEvent e = false) ∧
    ((createScene demoScene "Scene2"
        { makeActive := true }).2.1.activeSceneId =
        (({ makeActive := true } :
          SceneCreateOptions).sceneId.getD (newSceneId demoScene)) ∧
      SceneEvent.sceneSwitched
          (({ makeActive := true } :
            SceneCreateOptions).sceneId.getD (newSceneId demoScene)) "Scene2"
        ∈ (createScene demoScene "Scene2" { makeActive := true }).2.2) :=
  ⟨(createScene_active_pointer emptyState "Scene" {}).1 rfl rfl rfl,
   (createScene_active_pointer demoScene "Scene2" {}).2.1 (by decide) rfl,
   (createScene_active_pointer demoScene "Scene2"
      { makeActive := true }).2.2 rfl⟩

/-! ### C1: cycle freedom of the nested-scene graph

The executable check `reachesB` (fuel-bounded walk) is related to the
relational closure `Reaches` through walks recorded as lists of intermediate
vertices; a duplicate-free walk visits only scene keys, which bounds its
length and makes the fuel `cycleFuel` sufficient. -/

/-- A walk from `a` to `b` through the intermediate vertices `l`. -/
def WalkL (st : ScenesState) (a : String) (l : List String) (b : String) :
    Prop :=
  List.Chain (SceneEdge st) a (l ++ [b])

theorem reachesB_mono (st : ScenesState) :
    ∀ {n m : Nat}, n ≤ m → ∀ {a b : String},
      reachesB st n a b = true → reachesB st m a b = true := by
  intro n
  induction n with
  | zero => intro m _ a b h; simp [reachesB] at h
  | succ n ih =>
      intro m hm a b h
      obtain ⟨m', rfl⟩ : ∃ m', m = m' + 1 :=
        ⟨m - 1, by omega⟩
      simp only [reachesB, List.any_eq_true, Bool.or_eq_true] at h ⊢
      obtain ⟨c, hc, hcb⟩ := h
      refine ⟨c, hc, ?_⟩
      cases hcb with
      | inl h2 => exact Or.inl h2
      | inr h2 => exact Or.inr (ih (by omega) h2)

theorem reachesB_step (st : ScenesState) {n : Nat} {a b c : String}
    (hc : c ∈ nestedIds st a) (h : c = b ∨ reachesB st n c b = true) :
    reachesB st (n + 1) a b = true := by
  simp only [reachesB, List.any_eq_true, Bool.or_eq_true]
  refine ⟨c, hc, ?_⟩
  cases h with
  | inl h2 => exact Or.inl (by simp [h2])
  | inr h2 => exact Or.inr h2

theorem walkL_reachesB (st : ScenesState) :
    ∀ (l : List String) (a b : String), WalkL st a l b →
      reachesB st (l.length + 1) a b = true := by
  intro l
  induction l with
  | nil =>
      intro a b h
      rw [WalkL, List.nil_append, List.chain_singleton] at h
      exact reachesB_step st h (Or.inl rfl)
  | cons c l ih =>
      intro a b h
      rw [WalkL, List.cons_append, List.chain_cons] at h
      rw [List.length_cons]
      exact reachesB_step st h.1 (Or.inr (ih c b h.2))

theorem reaches_walkL (st : ScenesState) {a b : String}
    (h : Reaches st a b) : ∃ l, WalkL st a l b := by
  induction h with
  | single h1 =>
      refine ⟨[], ?_⟩
      rw [WalkL, List.nil_append, List.chain_singleton]
      exact h1
  | @tail m c _ hbc ih =>
      obtain ⟨l, hw⟩ := ih
      refine ⟨l ++ [m], ?_⟩
      rw [WalkL, List.append_assoc]
      show List.Chain (SceneEdge st) a (l ++ m :: [c])
      rw [List.chain_split]
      constructor
      · exact hw
      · rw [List.chain_singleton]
        exact hbc

theorem walkL_sound (st : ScenesState) :
    ∀ (l : List String) (a b : String), WalkL st a l b → Reaches st a b := by
  intro l
  induction l with
  | nil =>
      intro a b h
      rw [WalkL, List.nil_append, List.chain_singleton] at h
      exact Relation.TransGen.single h
  | cons c l ih =>
      intro a b h
      rw [WalkL, List.cons_append, List.chain_cons] at h
      exact Relation.TransGen.head h.1 (ih c b h.2)

theorem alookup_mem_keys {α : Type} (l : List (String × α)) (k : String)
    (h : (alookup l k).isSome = true) : k ∈ l.map Prod.fst := by
  induction l with
  | nil => simp [alookup] at h
  | cons p t ih =>
      by_cases hp : p.1 = k
      · simp [hp]
      · rw [alookup_cons, if_neg hp] at h
        simp [ih h]

theorem edge_source_mem (st : ScenesState) {a b : String}
    (h : SceneEdge st a b) : a ∈ sceneKeys st := by
  unfold SceneEdge nestedIds at h
  cases hg : getScene st a with
  | none => rw [hg] at h; simp at h
  | some sc =>
      have h2 : (alookup st.scenes a).isSome = true := by
        unfold getScene at hg
        rw [hg]
        rfl
      exact alookup_mem_keys st.scenes a h2

theorem edge_target_mem (st : ScenesState) {a b : String}
    (h : SceneEdge st a b) : b ∈ sceneKeys st := by
  unfold SceneEdge nestedIds at h
  cases hg : getScene st a with
  | none => rw [hg] at h; simp at h
  | some sc =>
      rw [hg] at h
      have := List.of_mem_filter h
      unfold isSceneSource at this
      exact alookup_mem_keys st.scenes b this

theorem edge_target_isScene (st : ScenesState) {a b : String}
    (h : SceneEdge st a b) : isSceneSource st b = true := by
  unfold SceneEdge nestedIds at h
  cases hg : getScene st a with
  | none => rw [hg] at h; simp at h
  | some sc =>
      rw [hg] at h
      exact List.of_mem_filter h

theorem walkL_targets (st : ScenesState) :
    ∀ (l : List String) (a b : String), WalkL st a l b →
      ∀ x ∈ l, x ∈ sceneKeys st := by
  intro l
  induction l with
  | nil => intro a b _ x hx; simp at hx
  | cons c l ih =>
      intro a b h x hx
      rw [WalkL, List.cons_append, List.chain_cons] at h
      rcases List.mem_cons.mp hx with rfl | hx2
      · exact edge_target_mem st h.1
      · exact ih c b h.2 x hx2

theorem dup_split (l : List String) (h : ¬ l.Nodup) :
    ∃ v l₁ l₂ l₃, l = l₁ ++ v :: l₂ ++ v :: l₃ := by
  induction l with
  | nil => exact absurd List.nodup_nil h
  | cons x xs ih =>
      by_cases hx : x ∈ xs
      · obtain ⟨p, q, rfl⟩ := List.append_of_mem hx
        exact ⟨x, [], p, q, rfl⟩
      · have hxs : ¬ xs.Nodup := by
          intro hn
          exact h (List.nodup_cons.mpr ⟨hx, hn⟩)
        obtain ⟨v, l₁, l₂, l₃, rfl⟩ := ih hxs
        exact ⟨v, x :: l₁, l₂, l₃, rfl⟩

theorem walkL_shorten (st : ScenesState) :
    ∀ (n : Nat) (l : List String) (a b : String), l.length ≤ n →
      WalkL st a l b → ∃ l', l'.Nodup ∧ WalkL st a l' b := by
  intro n
  induction n with
  | zero =>
      intro l a b hlen hw
      have : l = [] := List.length_eq_zero.mp (by omega)
      exact ⟨[], by rw [this] at hw; exact ⟨List.nodup_nil, hw⟩⟩
  | succ n ih =>
      intro l a b hlen hw
      by_cases hnd : l.Nodup
      · exact ⟨l, hnd, hw⟩
      · obtain ⟨v, l₁, l₂, l₃, rfl⟩ := dup_split l hnd
        rw [WalkL] at hw
        have hsplit1 : List.Chain (SceneEdge st) a (l₁ ++ [v]) ∧
            List.Chain (SceneEdge st) v (l₂ ++ v :: (l₃ ++ [b])) := by
          rw [← List.chain_split]
          have : l₁ ++ v :: l₂ ++ v :: l₃ ++ [b] =
              l₁ ++ v :: (l₂ ++ v :: (l₃ ++ [b])) := by simp
          rw [← this]
          exact hw
        have hsplit2 : List.Chain (SceneEdge st) v (l₃ ++ [b]) :=
          (List.chain_split.mp hsplit1.2).2
        have hw2 : WalkL st a (l₁ ++ v :: l₃) b := by
          rw [WalkL]
          have : (l₁ ++ v :: l₃) ++ [b] = l₁ ++ v :: (l₃ ++ [b]) := by simp
          rw [this, List.chain_split]
          exact ⟨hsplit1.1, hsplit2⟩
        refine ih (l₁ ++ v :: l₃) a b ?_ hw2
        have := hlen
        simp only [List.length_append, List.length_cons] at this ⊢
        omega

theorem nodup_subset_length {l m : List String} (hnd : l.Nodup)
    (hsub : ∀ x ∈ l, x ∈ m) : l.length ≤ m.length := by
  calc l.length = l.toFinset.card := (List.toFinset_card_of_nodup hnd).symm
    _ ≤ m.toFinset.card := Finset.card_le_card (by
        intro x hx
        rw [List.mem_toFinset] at hx ⊢
        exact hsub x hx)
    _ ≤ m.length := List.toFinset_card_le m

theorem reaches_complete (st : ScenesState) {a b : String}
    (h : Reaches st a b) : reachesB st (cycleFuel st) a b = true := by
  obtain ⟨l, hw⟩ := reaches_walkL st h
  obtain ⟨l', hnd, hw'⟩ := walkL_shorten st l.length l a b le_rfl hw
  have hsub := walkL_targets st l' a b hw'
  have hlen : l'.length ≤ st.scenes.length := by
    have h2 := nodup_subset_length hnd hsub
    simpa [sceneKeys] using h2
  exact reachesB_mono st (by unfold cycleFuel; omega)
    (walkL_reachesB st l' a b hw')

theorem reachesB_sound (st : ScenesState) :
    ∀ (n : Nat) (a b : String), reachesB st n a b = true →
      Reaches st a b := by
  intro n
  induction n with
  | zero => intro a b h; simp [reachesB] at h
  | succ n ih =>
      intro a b h
      simp only [reachesB, List.any_eq_true, Bool.or_eq_true] at h
      obtain ⟨c, hc, hcb⟩ := h
      cases hcb with
      | inl h2 =>
          have : c = b := by simpa using h2
          exact Relation.TransGen.single (this ▸ hc)
      | inr h2 => exact Relation.TransGen.head hc (ih c b h2)

theorem reaches_source_mem (st : ScenesState) {a b : String}
    (h : Reaches st a b) : a ∈ sceneKeys st := by
  induction h using Relation.TransGen.head_induction_on with
  | base h1 => exact edge_source_mem st h1
  | ih h1 _ _ => exact edge_source_mem st h1

/-- Executable cycle-freedom check over all scene keys. -/
def acyclicB (st : ScenesState) : Bool :=
  (sceneKeys st).all (fun s => ! reachesB st (cycleFuel st) s s)

theorem Acyclic_of_acyclicB (st : ScenesState) (h : acyclicB st = true) :
    Acyclic st := by
  intro u hu
  have hmem : u ∈ sceneKeys st := reaches_source_mem st hu
  have h2 := List.all_eq_true.mp h u hmem
  rw [reaches_complete st hu] at h2
  simp at h2

/-- Decomposition of transitive closure after inserting one edge `t → s`:
every walk of the extended relation either avoids the new edge (a walk of
the old relation) or passes through it, leaving an old-relation prefix to
`t` and an old-relation suffix from `s`. -/
theorem transGen_insert {α : Type} {R R2 : α → α → Prop} {t s : α}
    (himp : ∀ x y, R2 x y → R x y ∨ (x = t ∧ y = s)) {a b : α}
    (h : Relation.TransGen R2 a b) :
    Relation.TransGen R a b ∨
      (Relation.ReflTransGen R a t ∧ Relation.ReflTransGen R s b) := by
  induction h using Relation.TransGen.head_induction_on with
  | base h1 =>
      cases himp _ _ h1 with
      | inl h2 => exact Or.inl (Relation.TransGen.single h2)
      | inr h2 =>
          refine Or.inr ⟨?_, ?_⟩
          · rw [h2.1]
          · rw [← h2.2]
  | ih h1 hcb ihc =>
      cases himp _ _ h1 with
      | inl hac =>
          cases ihc with
          | inl hcb2 => exact Or.inl (Relation.TransGen.head hac hcb2)
          | inr hpair =>
              exact Or.inr ⟨Relation.ReflTransGen.head hac hpair.1, hpair.2⟩
      | inr hts =>
          cases ihc with
          | inl hcb2 =>
              refine Or.inr ⟨?_, ?_⟩
              · rw [hts.1]
              · rw [hts.2] at hcb2
                exact hcb2.to_reflTransGen
          | inr hpair =>
              refine Or.inr ⟨?_, ?_⟩
              · rw [hts.1]
              · exact hpair.2

theorem isSceneSource_scenes_eq (st2 st : ScenesState) (t : String)
    (f : SceneRec → SceneRec) (h : st2.scenes = updateVal st.scenes t f)
    (z : String) : isSceneSource st2 z = isSceneSource st z := by
  unfold isSceneSource getScene
  rw [h, alookup_updateVal]
  by_cases hz : z = t
  · rw [if_pos hz]
    cases alookup st.scenes z <;> rfl
  · rw [if_neg hz]

/-- After an accepted insertion of an item with source `s` into scene `t`,
every nested-scene edge is either an old edge or exactly the new `t → s`
edge. -/
theorem edge_after_insert (st : ScenesState) (t s : String)
    (item : SceneItemRec) (hitem : item.sourceId = s) (sc : SceneRec)
    (hg : getScene st t = some sc)
    (st2 : ScenesState)
    (hscenes : st2.scenes =
      updateVal st.scenes t (fun sc0 => { sc0 with nodes := item :: sc0.nodes })) :
    ∀ x y, SceneEdge st2 x y → SceneEdge st x y ∨ (x = t ∧ y = s) := by
  intro x y h
  have hiss : ∀ z, isSceneSource st2 z = isSceneSource st z :=
    isSceneSource_scenes_eq st2 st t _ hscenes
  unfold SceneEdge nestedIds at h ⊢
  rw [show getScene st2 x = alookup st2.scenes x from rfl, hscenes,
    alookup_updateVal] at h
  by_cases hx : x = t
  · rw [if_pos hx] at h
    rw [show getScene st x = alookup st.scenes x from rfl]
    unfold getScene at hg
    rw [hx, hg] at h ⊢
    rw [Option.map_some'] at h
    dsimp only at h ⊢
    rw [List.map_cons, hitem, List.filter_cons] at h
    by_cases hs : isSceneSource st2 s = true
    · rw [if_pos (by rw [hiss] at hs; rw [hiss]; exact hs)] at h
      rcases List.mem_cons.mp h with rfl | h2
      · exact Or.inr ⟨rfl, rfl⟩
      · left
        have hfilter : List.filter (fun z => isSceneSource st2 z)
            (List.map (fun n => n.sourceId) sc.nodes) =
            List.filter (fun z => isSceneSource st z)
            (List.map (fun n => n.sourceId) sc.nodes) := by
          apply List.filter_congr
          intro z _
          rw [hiss]
        rw [hfilter] at h2
        exact h2
    · rw [if_neg (by rw [hiss] at hs; rw [hiss]; exact hs)] at h
      left
      have hfilter : List.filter (fun z => isSceneSource st2 z)
          (List.map (fun n => n.sourceId) sc.nodes) =
          List.filter (fun z => isSceneSource st z)
          (List.map (fun n => n.sourceId) sc.nodes) := by
        apply List.filter_congr
        intro z _
        rw [hiss]
      rw [hfilter] at h
      exact h
  · rw [if_neg hx] at h
    left
    rw [show getScene st x = alookup st.scenes x from rfl]
    cases hax : alookup st.scenes x with
    | none => rw [hax] at h; simp at h
    | some scx =>
        rw [hax] at h
        dsimp only at h ⊢
        have hfilter : List.filter (fun z => isSceneSource st2 z)
            (List.map (fun n => n.sourceId) scx.nodes) =
            List.filter (fun z => isSceneSource st z)
            (List.map (fun n => n.sourceId) scx.nodes) := by
          apply List.filter_congr
          intro z _
          rw [hiss]
        rw [hfilter] at h
        exact h

/-- Inserting an item whose closure was checked preserves acyclicity. -/
theorem insert_preserves_acyclic (st : ScenesState) (t s : String)
    (sc : SceneRec) (hg : getScene st t = some sc)
    (hc : embedWouldCycle st t s = false) (item : SceneItemRec)
    (hitem : item.sourceId = s) (st2 : ScenesState)
    (hscenes : st2.scenes =
      updateVal st.scenes t (fun sc0 => { sc0 with nodes := item :: sc0.nodes }))
    (hA : Acyclic st) : Acyclic st2 := by
  intro u hu
  have hedge := edge_after_insert st t s item hitem sc hg st2 hscenes
  unfold embedWouldCycle at hc
  by_cases hs : isSceneSource st s = true
  · rw [hs, Bool.true_and] at hc
    have hc2 : (s == t) = false ∧ reachesB st (cycleFuel st) s t = false := by
      constructor
      · cases hbeq : (s == t) with
        | false => rfl
        | true => rw [hbeq] at hc; simp at hc
      · cases hrb : reachesB st (cycleFuel st) s t with
        | false => rfl
        | true => rw [hrb] at hc; simp at hc
    have hst : s ≠ t := by
      intro h2
      rw [h2] at hc2
      simp at hc2
    cases transGen_insert hedge hu with
    | inl h2 => exact hA u h2
    | inr hpair =>
        have hrtg : Relation.ReflTransGen (SceneEdge st) s t :=
          Relation.ReflTransGen.trans hpair.2 hpair.1
        rcases Relation.reflTransGen_iff_eq_or_transGen.mp hrtg with h3 | h3
        · exact hst h3.symm
        · rw [reaches_complete st h3] at hc2
          simp at hc2
  · have hs2 : isSceneSource st s = false := by
      cases hval : isSceneSource st s with
      | false => rfl
      | true => exact absurd hval hs
    have hmono : ∀ x y, SceneEdge st2 x y → SceneEdge st x y := by
      intro x y hxy
      cases hedge x y hxy with
      | inl h2 => exact h2
      | inr h2 =>
          exfalso
          have h5 := edge_target_isScene st2 hxy
          rw [isSceneSource_scenes_eq st2 st t _ hscenes, h2.2, hs2] at h5
          exact Bool.false_ne_true h5
    exact hA u (Relation.TransGen.mono hmono hu)

/-- Acyclicity is preserved by any `addSource` call: a refused or invalid
call leaves the state unchanged, and an accepted call only inserts an edge
whose closure was checked. -/
theorem addSource_preserves_acyclic (st : ScenesState) (t s : String)
    (hA : Acyclic st) : Acyclic (addSourceToScene st t s).2.1 := by
  unfold addSourceToScene
  cases hg : getScene st t with
  | none => exact hA
  | some sc =>
      by_cases hc : embedWouldCycle st t s
      · rw [if_pos hc]
        exact hA
      · rw [if_neg hc]
        dsimp only
        exact insert_preserves_acyclic st t s sc hg
          (by revert hc; cases embedWouldCycle st t s <;> simp)
          { sceneItemId := freshItemId st, sourceId := s,
            transform := defaultTransform, visible := true, locked := false }
          rfl _ rfl hA

theorem mem_keys_isSome {α : Type} (l : List (String × α)) (k : String)
    (h : k ∈ l.map Prod.fst) : (alookup l k).isSome = true := by
  induction l with
  | nil => simp at h
  | cons p t ih =>
      by_cases hp : p.1 = k
      · rw [alookup_cons, if_pos hp]
        rfl
      · rw [alookup_cons, if_neg hp]
        rcases List.mem_cons.mp h with h2 | h2
        · exact absurd h2.symm hp
        · exact ih h2

/-- When the candidate source transitively contains the target scene, the
insertion is refused: the result is the refusal value, the state is returned
unchanged (every node list included), and no event is emitted. -/
theorem addSource_refused_of_reaches (st : ScenesState) {A C : String}
    (h : Reaches st C A) :
    addSourceToScene st A C = (none, st, []) := by
  have hCscene : isSceneSource st C = true := by
    unfold isSceneSource
    exact mem_keys_isSome st.scenes C (reaches_source_mem st h)
  unfold addSourceToScene
  cases hg : getScene st A with
  | none => rfl
  | some sc =>
      rw [if_pos]
      unfold embedWouldCycle
      rw [hCscene, reaches_complete st h]
      simp

/-- A sequence of `addSource` calls, each applied to the state the previous
one produced. -/
def applyAddSources (st : ScenesState) (calls : List (String × String)) :
    ScenesState :=
  calls.foldl (fun acc c => (addSourceToScene acc c.1 c.2).2.1) st

/-- C1: for every sequence of `addSource` calls on an acyclic state, the
scene graph stays acyclic — no scene ever becomes reachable from itself
through the "node references nested scene" relation — and whenever scene `A`
is transitively contained in scene `C`, the call `addSource(C)` on `A` is
refused and leaves the whole graph (hence `A`'s node list) unchanged, with
no event emitted. -/
theorem addSource_cycle_freedom (st : ScenesState)
    (calls : List (String × String)) (hA : Acyclic st) :
    Acyclic (applyAddSources st calls) ∧
    ∀ A C, Reaches (applyAddSources st calls) C A →
      addSourceToScene (applyAddSources st calls) A C =
        (none, applyAddSources st calls, []) := by
  have hAcyc : Acyclic (applyAddSources st calls) := by
    unfold applyAddSources
    induction calls generalizing st with
    | nil => exact hA
    | cons c rest ih =>
        rw [List.foldl_cons]
        exact ih (addSourceToScene st c.1 c.2).2.1
          (addSource_preserves_acyclic st c.1 c.2 hA)
  exact ⟨hAcyc, fun A C h => addSource_refused_of_reaches _ h⟩

/-- Three scenes `SceneA`, `SceneB`, `SceneC` (ids `scene_0 … scene_2`). -/
def threeScenes : ScenesState :=
  (createScene
    (createScene (createScene emptyState "SceneA").2.1 "SceneB").2.1
    "SceneC").2.1

/-- The nested-scene calls of the repository's test: embed B in A, then A in
C (so C transitively contains A and B). -/
def c1Calls : List (String × String) :=
  [("scene_0", "scene_1"), ("scene_2", "scene_0")]

/-- Witness for C1: after embedding B into A and A into C, the graph is
acyclic and the closing call `addSource(SceneC)` on `SceneA` is refused with
the graph unchanged. -/
theorem addSource_cycle_freedom_witness :
    Acyclic (applyAddSources threeScenes c1Calls) ∧
    addSourceToScene (applyAddSources threeScenes c1Calls)
        "scene_0" "scene_2" =
      (none, applyAddSources threeScenes c1Calls, []) :=
  ⟨(addSource_cycle_freedom threeScenes c1Calls
      (Acyclic_of_acyclicB threeScenes (by decide))).1,
   (addSource_cycle_freedom threeScenes c1Calls
      (Acyclic_of_acyclicB threeScenes (by decide))).2 "scene_0" "scene_2"
     (Relation.TransGen.single (by decide))⟩

/-! ### C6: the removeScene cascade

`removeScene`'s two loops are folds of single-item removals; they are
characterized by one lemma (`foldl_removeStep_spec`) stating that removing a
duplicate-free list of present item ids filters every scene's node list and
emits one `itemRemoved` per id, in order. -/

/-- Keep a node unless its id is listed. -/
def keepNot (iids : List String) (n : SceneItemRec) : Bool :=
  decide (n.sceneItemId ∉ iids)

/-- The node filter used by a single-item removal. -/
def removeFilter (iid : String) (n : SceneItemRec) : Bool :=
  n.sceneItemId != iid

/-- Filter every scene's node list by a node predicate. -/
def filterScenes (p : SceneItemRec → Bool)
    (scenes : List (String × SceneRec)) : List (String × SceneRec) :=
  scenes.map (fun q => (q.1, { q.2 with nodes := q.2.nodes.filter p }))

/-- `flatMap` commutes with a pointwise `filter`. -/
theorem flatMap_filter_of_pointwise {α β : Type} (l : List α)
    (F : α → List β) (p : β → Bool) (F2 : α → List β)
    (h : ∀ a, F2 a = (F a).filter p) :
    l.flatMap F2 = (l.flatMap F).filter p := by
  induction l with
  | nil => rfl
  | cons a t ih => simp [List.flatMap_cons, h a, ih]

theorem getSceneItems_filterScenes (st : ScenesState)
    (p : SceneItemRec → Bool) :
    getSceneItems { st with scenes := filterScenes p st.scenes } =
      (getSceneItems st).filter p := by
  unfold getSceneItems filterScenes
  apply flatMap_filter_of_pointwise
  intro d
  have h1 := getScene_mapNodes st (fun nodes => nodes.filter p) d
  rw [show getScene { st with scenes := st.scenes.map (fun q =>
      (q.1, { q.2 with nodes := q.2.nodes.filter p })) } d =
    alookup (st.scenes.map (fun q =>
      (q.1, { q.2 with nodes := q.2.nodes.filter p }))) d from rfl, h1]
  cases getScene st d <;> rfl

/-- `find?` is unaffected by filtering out only elements the query rejects. -/
theorem find?_filter_of_imp {α : Type} (l : List α) (p q : α → Bool)
    (himp : ∀ x, q x = true → p x = true) :
    (l.filter p).find? q = l.find? q := by
  induction l with
  | nil => rfl
  | cons x t ih =>
      by_cases hq : q x = true
      · rw [List.filter_cons, if_pos (himp x hq)]
        rw [List.find?_cons_of_pos _ hq, List.find?_cons_of_pos _ hq]
      · have hq2 : q x = false := by
          cases hval : q x with
          | false => rfl
          | true => exact absurd hval hq
        rw [List.find?_cons_of_neg _ (by rw [hq2]; exact Bool.false_ne_true),
          List.filter_cons]
        by_cases hp : p x = true
        · rw [if_pos hp, List.find?_cons_of_neg _
            (by rw [hq2]; exact Bool.false_ne_true)]
          exact ih
        · rw [if_neg hp]
          exact ih

theorem inj_on_of_nodup_ids {l : List SceneItemRec}
    (h : (l.map (fun n => n.sceneItemId)).Nodup) :
    ∀ x ∈ l, ∀ y ∈ l, x.sceneItemId = y.sceneItemId → x = y :=
  fun x hx y hy hxy => List.inj_on_of_nodup_map h hx hy hxy

/-- With globally unique item ids, `findItem` returns exactly the listed
item. -/
theorem findItem_of_mem_nodup (st : ScenesState) (n : SceneItemRec)
    (hmem : n ∈ getSceneItems st)
    (hnd : ((getSceneItems st).map (fun m => m.sceneItemId)).Nodup) :
    findItem st n.sceneItemId = some n := by
  unfold findItem
  cases hf : (getSceneItems st).find? (fun m =>
      m.sceneItemId == n.sceneItemId) with
  | none =>
      exfalso
      have h2 := List.find?_eq_none.mp hf n hmem
      simp at h2
  | some m =>
      have hm1 : m ∈ getSceneItems st := List.mem_of_find?_eq_some hf
      have hm2 := List.find?_some hf
      have hm3 : m.sceneItemId = n.sceneItemId := by simpa using hm2
      rw [inj_on_of_nodup_ids hnd m hm1 n hmem hm3]

/-- A guarded fold is a fold over the filtered list. -/
theorem foldl_guard {α β : Type} (l : List α) (p : α → Bool) (g : β → α → β)
    (b : β) :
    l.foldl (fun acc n => if p n then g acc n else acc) b =
      (l.filter p).foldl g b := by
  induction l generalizing b with
  | nil => rfl
  | cons x t ih =>
      rw [List.foldl_cons, List.filter_cons]
      by_cases hp : p x = true
      · rw [if_pos hp, if_pos hp, List.foldl_cons]
        exact ih (g b x)
      · rw [if_neg hp, if_neg hp]
        exact ih b

theorem alookup_filter_ne {α : Type} (l : List (String × α)) (id d : String)
    (h : d ≠ id) :
    alookup (l.filter (fun p => p.1 != id)) d = alookup l d := by
  induction l with
  | nil => rfl
  | cons p t ih =>
      rw [List.filter_cons]
      by_cases hp : p.1 = id
      · rw [if_neg (by simp [hp]), alookup_cons,
          if_neg (by rw [hp]; exact fun hc => h hc.symm)]
        exact ih
      · rw [if_pos (by simp [hp]), alookup_cons, alookup_cons]
        by_cases hd : p.1 = d
        · rw [if_pos hd, if_pos hd]
        · rw [if_neg hd, if_neg hd]
          exact ih

theorem alookup_filter_self {α : Type} (l : List (String × α)) (id : String) :
    alookup (l.filter (fun p => p.1 != id)) id = none := by
  induction l with
  | nil => rfl
  | cons p t ih =>
      rw [List.filter_cons]
      by_cases hp : p.1 = id
      · rw [if_neg (by simp [hp])]
        exact ih
      · rw [if_pos (by simp [hp]), alookup_cons, if_neg hp]
        exact ih

theorem map_fst_filter_ne {α : Type} (l : List (String × α)) (id : String) :
    (l.filter (fun p => p.1 != id)).map Prod.fst =
      (l.map Prod.fst).filter (fun x => x != id) := by
  induction l with
  | nil => rfl
  | cons p t ih =>
      rw [List.map_cons, List.filter_cons, List.filter_cons]
      by_cases hp : (p.1 != id) = true
      · rw [if_pos hp, if_pos hp, List.map_cons, ih]
      · rw [if_neg hp, if_neg hp, ih]

/-- The source id of the (unique) item carrying a given id. -/
def sourceOf (st : ScenesState) (iid : String) : String :=
  match findItem st iid with
  | none => ""
  | some n => n.sourceId

theorem filter_keepNot_nil (l : List SceneItemRec) :
    l.filter (keepNot []) = l :=
  List.filter_eq_self.mpr (by intro a _; simp [keepNot])

/-- Folding single-item removal over a duplicate-free list of present item
ids filters every scene's node list and emits one `itemRemoved` per id, in
order. -/
theorem foldl_removeStep_spec (iids : List String) :
    ∀ (st : ScenesState) (evs0 : List SceneEvent),
      iids.Nodup →
      ((getSceneItems st).map (fun n => n.sceneItemId)).Nodup →
      (∀ i ∈ iids, ∃ n ∈ getSceneItems st, n.sceneItemId = i) →
      iids.foldl removeStep (st, evs0) =
        ({ st with scenes := filterScenes (keepNot iids) st.scenes },
         evs0 ++ iids.map
           (fun i => SceneEvent.itemRemoved i (sourceOf st i))) := by
  induction iids with
  | nil =>
      intro st evs0 _ _ _
      rw [List.foldl_nil, List.map_nil, List.append_nil]
      have h1 : filterScenes (keepNot []) st.scenes = st.scenes := by
        unfold filterScenes
        have h2 : (fun q : String × SceneRec =>
            (q.1, { q.2 with nodes := q.2.nodes.filter (keepNot []) })) =
            (fun q : String × SceneRec =>
              (q.1, { q.2 with nodes := q.2.nodes })) := by
          funext q
          rw [filter_keepNot_nil]
        rw [h2]
        exact List.map_id' st.scenes
      rw [h1]
  | cons i rest ih =>
      intro st evs0 hnd hids hmem
      obtain ⟨n, hn, hni⟩ := hmem i (List.mem_cons_self i rest)
      have hfind : findItem st i = some n := by
        rw [← hni]
        exact findItem_of_mem_nodup st n hn hids
      have hsrc : sourceOf st i = n.sourceId := by
        unfold sourceOf
        rw [hfind]
      have hstep : removeStep (st, evs0) i =
          ({ st with scenes := filterScenes (removeFilter i) st.scenes },
           evs0 ++ [SceneEvent.itemRemoved i (sourceOf st i)]) := by
        unfold removeStep removeItemFromState
        rw [hfind]
        dsimp only
        rw [hni, hsrc]
        rfl
      rw [List.foldl_cons, hstep]
      have hitems1 : getSceneItems
          { st with scenes := filterScenes (removeFilter i) st.scenes } =
          (getSceneItems st).filter (removeFilter i) :=
        getSceneItems_filterScenes st _
      have hidsub : List.Sublist
          (((getSceneItems st).filter
            (removeFilter i)).map (fun n => n.sceneItemId))
          ((getSceneItems st).map (fun n => n.sceneItemId)) :=
        List.Sublist.map _ (List.filter_sublist _)
      have hids1 : (((getSceneItems st).filter
          (removeFilter i)).map
            (fun n => n.sceneItemId)).Nodup :=
        List.Nodup.sublist hidsub hids
      have hmem1 : ∀ j ∈ rest, ∃ m ∈ (getSceneItems st).filter
          (removeFilter i), m.sceneItemId = j := by
        intro j hj
        obtain ⟨m, hm, hmj⟩ := hmem j (List.mem_cons_of_mem i hj)
        have hji : j ≠ i := by
          intro h2
          rw [h2] at hj
          exact (List.nodup_cons.mp hnd).1 hj
        refine ⟨m, List.mem_filter.mpr ⟨hm, ?_⟩, hmj⟩
        simp [removeFilter, hmj, hji]
      have ihres := ih _ (evs0 ++ [SceneEvent.itemRemoved i (sourceOf st i)])
        (List.nodup_cons.mp hnd).2 (by rw [hitems1]; exact hids1)
        (by rw [hitems1]; exact hmem1)
      rw [ihres]
      have hff : ∀ l : List SceneItemRec,
          (l.filter (removeFilter i)).filter (keepNot rest) =
            l.filter (keepNot (i :: rest)) := by
        intro l
        rw [List.filter_filter]
        apply List.filter_congr
        intro a _
        by_cases h2 : a.sceneItemId = i <;>
          simp [removeFilter, keepNot, List.mem_cons, not_or, h2]
      have hscomp : filterScenes (keepNot rest)
          (filterScenes (removeFilter i) st.scenes) =
          filterScenes (keepNot (i :: rest)) st.scenes := by
        unfold filterScenes
        rw [List.map_map]
        apply List.map_congr_left
        intro q _
        dsimp only [Function.comp]
        rw [hff]
      have hsrc1 : ∀ j ∈ rest, sourceOf
          { st with scenes := filterScenes (removeFilter i) st.scenes } j =
          sourceOf st j := by
        intro j hj
        have hji : j ≠ i := by
          intro h2
          rw [h2] at hj
          exact (List.nodup_cons.mp hnd).1 hj
        unfold sourceOf findItem
        rw [hitems1, find?_filter_of_imp]
        intro x hx
        have hxj : x.sceneItemId = j := by simpa using hx
        simp [removeFilter, hxj, hji]
      have hevs : (rest.map (fun j => SceneEvent.itemRemoved j
          (sourceOf
            { st with scenes := filterScenes (removeFilter i) st.scenes }
            j))) =
          rest.map (fun j => SceneEvent.itemRemoved j (sourceOf st j)) := by
        apply List.map_congr_left
        intro j hj
        rw [hsrc1 j hj]
      rw [hscomp, hevs, List.map_cons, List.append_assoc]
      rfl

theorem alookup_filterScenes (p : SceneItemRec → Bool)
    (l : List (String × SceneRec)) (d : String) :
    alookup (filterScenes p l) d =
      (alookup l d).map (fun sc => { sc with nodes := sc.nodes.filter p }) := by
  induction l with
  | nil => rfl
  | cons q t ih =>
      unfold filterScenes at ih ⊢
      rw [List.map_cons, alookup_cons, alookup_cons]
      by_cases hd : q.1 = d
      · rw [if_pos hd, if_pos hd]
        rfl
      · rw [if_neg hd, if_neg hd, ih]

theorem map_fst_filterScenes (p : SceneItemRec → Bool)
    (l : List (String × SceneRec)) :
    (filterScenes p l).map Prod.fst = l.map Prod.fst := by
  unfold filterScenes
  rw [List.map_map]
  rfl

theorem mem_getSceneItems_of_scene (st : ScenesState) (d : String)
    (scd : SceneRec) (hd : d ∈ st.displayOrder)
    (hg : getScene st d = some scd) :
    ∀ n ∈ scd.nodes, n ∈ getSceneItems st := by
  intro n hn
  unfold getSceneItems
  rw [List.mem_flatMap]
  refine ⟨d, hd, ?_⟩
  rw [hg]
  exact hn

theorem ownIds_nodup (st : ScenesState) (id : String) (sc : SceneRec)
    (hg : getScene st id = some sc) (hdisp : id ∈ st.displayOrder)
    (hids : ((getSceneItems st).map (fun n => n.sceneItemId)).Nodup) :
    ((sc.nodes.map (fun n => n.sceneItemId))).Nodup := by
  obtain ⟨p, q, hpq⟩ := List.append_of_mem hdisp
  have hitems : getSceneItems st =
      (p.flatMap (fun d => match getScene st d with
        | none => []
        | some s => s.nodes)) ++
      (sc.nodes ++ (q.flatMap (fun d => match getScene st d with
        | none => []
        | some s => s.nodes))) := by
    unfold getSceneItems
    rw [hpq, List.flatMap_append, List.flatMap_cons, hg]
  rw [hitems] at hids
  rw [List.map_append, List.map_append] at hids
  have hsub1 : List.Sublist (sc.nodes.map (fun n => n.sceneItemId))
      ((sc.nodes.map (fun n => n.sceneItemId)) ++
        ((q.flatMap (fun d => match getScene st d with
          | none => []
          | some s => s.nodes)).map (fun n => n.sceneItemId))) :=
    List.sublist_append_left _ _
  have hsub2 := List.sublist_append_right
    ((p.flatMap (fun d => match getScene st d with
      | none => []
      | some s => s.nodes)).map (fun n => n.sceneItemId))
    (((sc.nodes.map (fun n => n.sceneItemId)) ++
      ((q.flatMap (fun d => match getScene st d with
        | none => []
        | some s => s.nodes)).map (fun n => n.sceneItemId))))
  exact List.Nodup.sublist (hsub1.trans hsub2) hids

theorem foldl_removeRefsStep (id : String) (l : List SceneItemRec) :
    ∀ acc : ScenesState × List SceneEvent,
      l.foldl (removeRefsStep id) acc =
        ((l.filter (fun n => n.sourceId == id)).map
          (fun n => n.sceneItemId)).foldl removeStep acc := by
  induction l with
  | nil => intro acc; rfl
  | cons n t ih =>
      intro acc
      rw [List.foldl_cons, List.filter_cons]
      by_cases h : (n.sourceId == id) = true
      · rw [if_pos h, List.map_cons, List.foldl_cons]
        unfold removeRefsStep
        rw [if_pos h]
        exact ih _
      · rw [if_neg h]
        unfold removeRefsStep
        rw [if_neg h]
        exact ih acc

/-- The state after `removeScene`'s first loop: the removed scene's own
nodes are gone everywhere. -/
def phase1State (st : ScenesState) (sc : SceneRec) : ScenesState :=
  let p := keepNot (sc.nodes.map (fun n => n.sceneItemId))
  { st with scenes := filterScenes p st.scenes }

/-- The items referencing the removed scene, in the snapshot order of
`removeScene`'s second loop. -/
def refNodes (st : ScenesState) (id : String) (sc : SceneRec) :
    List SceneItemRec :=
  ((getSceneItems st).filter
    (keepNot (sc.nodes.map (fun n => n.sceneItemId)))).filter
    (fun n => n.sourceId == id)

/-- Filter one scene record's node list (the shape of a `filterScenes`
entry). -/
def pruneScene (p : SceneItemRec → Bool) (s : SceneRec) : SceneRec :=
  { s with nodes := s.nodes.filter p }

/-- The state after `removeScene`'s second loop. -/
def phase2State (st : ScenesState) (id : String) (sc : SceneRec) :
    ScenesState :=
  let p := keepNot ((refNodes st id sc).map (fun n => n.sceneItemId))
  { phase1State st sc with
      scenes := filterScenes p (phase1State st sc).scenes }

theorem promotePhase_keeps (id : String) (st3 : ScenesState) :
    (promotePhase id st3).1.scenes = st3.scenes ∧
    (promotePhase id st3).1.displayOrder = st3.displayOrder := by
  unfold promotePhase
  by_cases h : (st3.activeSceneId == id) = true
  · rw [if_pos h]
    cases sceneKeys st3 with
    | nil => exact ⟨rfl, rfl⟩
    | cons k ks =>
        dsimp only
        unfold makeSceneActive
        cases getScene st3 k with
        | none => exact ⟨rfl, rfl⟩
        | some sck => exact ⟨rfl, rfl⟩
  · rw [if_neg h]
    exact ⟨rfl, rfl⟩

theorem getSceneItems_congr (st st2 : ScenesState)
    (h1 : st2.displayOrder = st.displayOrder) (h2 : st2.scenes = st.scenes) :
    getSceneItems st2 = getSceneItems st := by
  unfold getSceneItems getScene
  rw [h1, h2]

/-- C6: on a removable scene (`force` unset, at least two scenes),
`removeScene` removes every node of the scene (one `itemRemoved` each), then
every node of other scenes whose source is this scene (one `itemRemoved`
each), then the scene record itself; if the removed scene was active another
scene is activated (emitting `sceneSwitched`); and `sceneRemoved` is the
last event of the operation. -/
theorem removeScene_cascade (st : ScenesState) (id : String) (sc : SceneRec)
    (hcount : 2 ≤ st.scenes.length) (hg : getScene st id = some sc)
    (hdisp : id ∈ st.displayOrder)
    (hids : ((getSceneItems st).map (fun n => n.sceneItemId)).Nodup) :
    ∃ st4 swEvs,
      removeScene st id false =
        (some sc, st4,
          (sc.nodes.map (fun n =>
              SceneEvent.itemRemoved n.sceneItemId n.sourceId) ++
            (refNodes st id sc).map (fun n =>
              SceneEvent.itemRemoved n.sceneItemId n.sourceId)) ++
          swEvs ++ [SceneEvent.sceneRemoved sc.id sc.name]) ∧
      getScene st4 id = none ∧
      id ∉ st4.displayOrder ∧
      (∀ n ∈ getSceneItems st4, n.sourceId ≠ id) ∧
      (st.activeSceneId ≠ id → swEvs = [] ∧
        st4.activeSceneId = st.activeSceneId) ∧
      (st.activeSceneId = id →
        ∀ k ks, (sceneKeys st).filter (fun x => x != id) = k :: ks →
          st4.activeSceneId = k ∧
          ∃ k2 nm, swEvs = [SceneEvent.sceneSwitched k2 nm]) := by
  have hmemOwn : ∀ i ∈ sc.nodes.map (fun n => n.sceneItemId),
      ∃ n ∈ getSceneItems st, n.sceneItemId = i := by
    intro i hi
    rw [List.mem_map] at hi
    obtain ⟨n, hn, rfl⟩ := hi
    exact ⟨n, mem_getSceneItems_of_scene st id sc hdisp hg n hn, rfl⟩
  have hndOwn := ownIds_nodup st id sc hg hdisp hids
  have hfold1 := foldl_removeStep_spec (sc.nodes.map (fun n => n.sceneItemId))
    st [] hndOwn hids hmemOwn
  have hevOwn : (sc.nodes.map (fun n => n.sceneItemId)).map
      (fun i => SceneEvent.itemRemoved i (sourceOf st i)) =
      sc.nodes.map (fun n =>
        SceneEvent.itemRemoved n.sceneItemId n.sourceId) := by
    rw [List.map_map]
    apply List.map_congr_left
    intro n hn
    dsimp only [Function.comp]
    have h2 : sourceOf st n.sceneItemId = n.sourceId := by
      unfold sourceOf
      rw [findItem_of_mem_nodup st n
        (mem_getSceneItems_of_scene st id sc hdisp hg n hn) hids]
    rw [h2]
  have hsnap : getSceneItems (phase1State st sc) =
      (getSceneItems st).filter
        (keepNot (sc.nodes.map (fun n => n.sceneItemId))) :=
    getSceneItems_filterScenes st _
  have hidsF1 : ((getSceneItems (phase1State st sc)).map
      (fun n => n.sceneItemId)).Nodup := by
    rw [hsnap]
    exact List.Nodup.sublist
      (List.Sublist.map _ (List.filter_sublist _)) hids
  have hmemRef : ∀ j ∈ (refNodes st id sc).map (fun n => n.sceneItemId),
      ∃ n ∈ getSceneItems (phase1State st sc), n.sceneItemId = j := by
    intro j hj
    rw [List.mem_map] at hj
    obtain ⟨n, hn, rfl⟩ := hj
    unfold refNodes at hn
    refine ⟨n, ?_, rfl⟩
    rw [hsnap]
    exact List.mem_of_mem_filter hn
  have hndRef : ((refNodes st id sc).map (fun n => n.sceneItemId)).Nodup := by
    have hsub : List.Sublist
        ((refNodes st id sc).map (fun n => n.sceneItemId))
        ((getSceneItems (phase1State st sc)).map
          (fun n => n.sceneItemId)) := by
      rw [hsnap]
      exact List.Sublist.map _ (List.filter_sublist _)
    exact List.Nodup.sublist hsub hidsF1
  have hfold2 := foldl_removeStep_spec
    ((refNodes st id sc).map (fun n => n.sceneItemId))
    (phase1State st sc)
    (sc.nodes.map (fun n =>
      SceneEvent.itemRemoved n.sceneItemId n.sourceId))
    hndRef hidsF1 hmemRef
  have hevRef : ((refNodes st id sc).map (fun n => n.sceneItemId)).map
      (fun i => SceneEvent.itemRemoved i (sourceOf (phase1State st sc) i)) =
      (refNodes st id sc).map (fun n =>
        SceneEvent.itemRemoved n.sceneItemId n.sourceId) := by
    rw [List.map_map]
    apply List.map_congr_left
    intro n hn
    dsimp only [Function.comp]
    have hmem1 : n ∈ getSceneItems (phase1State st sc) := by
      rw [hsnap]
      unfold refNodes at hn
      exact List.mem_of_mem_filter hn
    have h2 : sourceOf (phase1State st sc) n.sceneItemId = n.sourceId := by
      unfold sourceOf
      rw [findItem_of_mem_nodup (phase1State st sc) n hmem1 hidsF1]
    rw [h2]
  have hguard : (!false && decide (st.scenes.length < 2)) = false := by
    simp only [Bool.not_false, Bool.true_and, decide_eq_false_iff_not]
    omega
  have hfold1x : List.foldl removeStep (st, [])
      (sc.nodes.map (fun n => n.sceneItemId)) =
      (phase1State st sc, sc.nodes.map (fun n =>
        SceneEvent.itemRemoved n.sceneItemId n.sourceId)) := by
    rw [hfold1, List.nil_append, hevOwn]
    rfl
  have hfold2x : List.foldl removeStep
      (phase1State st sc, sc.nodes.map (fun n =>
        SceneEvent.itemRemoved n.sceneItemId n.sourceId))
      ((((getSceneItems st).filter
          (keepNot (sc.nodes.map (fun n => n.sceneItemId)))).filter
        (fun n => n.sourceId == id)).map (fun n => n.sceneItemId)) =
      (phase2State st id sc,
        (sc.nodes.map (fun n =>
          SceneEvent.itemRemoved n.sceneItemId n.sourceId)) ++
        ((refNodes st id sc).map (fun n =>
          SceneEvent.itemRemoved n.sceneItemId n.sourceId))) := by
    rw [hevRef] at hfold2
    exact hfold2
  have hred : removeScene st id false =
      (some sc, (promotePhase id (removeSceneRecord id
          (phase2State st id sc))).1,
        ((sc.nodes.map (fun n =>
            SceneEvent.itemRemoved n.sceneItemId n.sourceId)) ++
          ((refNodes st id sc).map (fun n =>
            SceneEvent.itemRemoved n.sceneItemId n.sourceId))) ++
        (promotePhase id (removeSceneRecord id (phase2State st id sc))).2 ++
        [SceneEvent.sceneRemoved sc.id sc.name]) := by
    conv_lhs => unfold removeScene
    rw [hguard, hg]
    dsimp only
    rw [if_neg Bool.false_ne_true]
    rw [hfold1x]
    dsimp only
    rw [hsnap]
    rw [foldl_removeRefsStep]
    rw [hfold2x]
  refine ⟨(promotePhase id (removeSceneRecord id (phase2State st id sc))).1,
    (promotePhase id (removeSceneRecord id (phase2State st id sc))).2,
    hred, ?_, ?_, ?_, ?_, ?_⟩
  · have hk := promotePhase_keeps id (removeSceneRecord id (phase2State st id sc))
    unfold getScene
    rw [hk.1]
    exact alookup_filter_self (phase2State st id sc).scenes id
  · have hk := promotePhase_keeps id (removeSceneRecord id (phase2State st id sc))
    intro hmem
    rw [hk.2] at hmem
    have h2 : id ∈ (phase2State st id sc).displayOrder.filter
        (fun x => x != id) := hmem
    have h3 := List.of_mem_filter h2
    simp at h3
  · have hk := promotePhase_keeps id (removeSceneRecord id (phase2State st id sc))
    intro n hn hsrc
    rw [getSceneItems_congr (removeSceneRecord id (phase2State st id sc)) _
      hk.2 hk.1] at hn
    unfold getSceneItems at hn
    rw [List.mem_flatMap] at hn
    obtain ⟨d, hd, hnd⟩ := hn
    have hd' : d ∈ (phase2State st id sc).displayOrder.filter
        (fun x => x != id) := hd
    have hdne : d ≠ id := by
      have := List.of_mem_filter hd'
      simpa using this
    have hg3 : getScene (removeSceneRecord id (phase2State st id sc)) d =
        getScene (phase2State st id sc) d := by
      unfold getScene
      exact alookup_filter_ne (phase2State st id sc).scenes id d hdne
    have hg2 : getScene (phase2State st id sc) d =
        (getScene (phase1State st sc) d).map
          (pruneScene (keepNot ((refNodes st id sc).map
            (fun m => m.sceneItemId)))) := by
      unfold getScene
      exact alookup_filterScenes _ _ d
    have hg1 : getScene (phase1State st sc) d =
        (getScene st d).map
          (pruneScene (keepNot (sc.nodes.map (fun m => m.sceneItemId)))) := by
      unfold getScene
      exact alookup_filterScenes _ _ d
    rw [hg3, hg2, hg1] at hnd
    cases hgst : getScene st d with
    | none =>
        rw [hgst] at hnd
        simp at hnd
    | some sc0 =>
        rw [hgst, Option.map_some', Option.map_some'] at hnd
        unfold pruneScene at hnd
        dsimp only at hnd
        have hkeepRef := List.of_mem_filter hnd
        have hmemInner := List.mem_of_mem_filter hnd
        have hkeepOwn := List.of_mem_filter hmemInner
        have hmemNodes := List.mem_of_mem_filter hmemInner
        have hdst : d ∈ st.displayOrder := by
          have hds : d ∈ st.displayOrder.filter (fun x => x != id) := hd'
          exact List.mem_of_mem_filter hds
        have hmemSt : n ∈ getSceneItems st :=
          mem_getSceneItems_of_scene st d sc0 hdst hgst n hmemNodes
        have hmemRefN : n ∈ refNodes st id sc := by
          unfold refNodes
          refine List.mem_filter.mpr
            ⟨List.mem_filter.mpr ⟨hmemSt, hkeepOwn⟩, ?_⟩
          rw [hsrc]
          simp
        have hidmem : n.sceneItemId ∈
            (refNodes st id sc).map (fun m => m.sceneItemId) :=
          List.mem_map.mpr ⟨n, hmemRefN, rfl⟩
        exact (of_decide_eq_true hkeepRef) hidmem
  · intro hne
    have hb : ((removeSceneRecord id
        (phase2State st id sc)).activeSceneId == id) = false := by
      show (st.activeSceneId == id) = false
      exact beq_eq_false_iff_ne.mpr hne
    have hinact : promotePhase id (removeSceneRecord id (phase2State st id sc)) =
        (removeSceneRecord id (phase2State st id sc), []) := by
      unfold promotePhase
      rw [hb, if_neg Bool.false_ne_true]
    refine ⟨by rw [hinact], ?_⟩
    rw [hinact]
    rfl
  · intro hact k ks hkeys
    have hkeys2 : (phase2State st id sc).scenes.map Prod.fst =
        st.scenes.map Prod.fst := by
      show (filterScenes (keepNot ((refNodes st id sc).map
            (fun n => n.sceneItemId)))
          (filterScenes (keepNot (sc.nodes.map (fun n => n.sceneItemId)))
            st.scenes)).map Prod.fst = st.scenes.map Prod.fst
      rw [map_fst_filterScenes, map_fst_filterScenes]
    have hkeys3 : sceneKeys (removeSceneRecord id (phase2State st id sc)) =
        k :: ks := by
      unfold sceneKeys
      show ((phase2State st id sc).scenes.filter
          (fun p => p.1 != id)).map (fun p => p.1) = k :: ks
      rw [map_fst_filter_ne, hkeys2]
      exact hkeys
    have hact3 : (removeSceneRecord id
        (phase2State st id sc)).activeSceneId = id := hact
    unfold promotePhase
    rw [hact3, hkeys3, if_pos (by simp)]
    dsimp only
    unfold makeSceneActive
    have hksome : (getScene (removeSceneRecord id
        (phase2State st id sc)) k).isSome = true := by
      apply mem_keys_isSome
      show k ∈ sceneKeys (removeSceneRecord id (phase2State st id sc))
      rw [hkeys3]
      exact List.mem_cons_self k ks
    cases hgk : getScene (removeSceneRecord id (phase2State st id sc)) k with
    | none =>
        rw [hgk] at hksome
        simp at hksome
    | some sck =>
        dsimp only
        exact ⟨rfl, sck.id, sck.name, rfl⟩

/-- Two scenes `S1`/`S2` where `S2` holds an image item and `S1` embeds `S2`
(the nested-scene removal situation of the tests). -/
def c6Base : ScenesState :=
  (createScene (createScene emptyState "S1").2.1 "S2").2.1

/-- `c6Base` after `createAndAddSource('Img', 'image_source')` on `S2`. -/
def c6Mid : ScenesState :=
  (createAndAddSource c6Base "scene_1" "Img" "image_source").2.1

/-- The witness state: `S1` additionally embeds `S2` as a nested scene. -/
def c6State : ScenesState :=
  (addSourceToScene c6Mid "scene_0" "scene_1").2.1

/-- The image item held by `S2` in `c6State`. -/
def c6Node : SceneItemRec :=
  { sceneItemId := "item_3", sourceId := "source_2",
    transform := defaultTransform, visible := true, locked := false }

/-- The record of scene `S2` in `c6State`. -/
def c6Scene : SceneRec :=
  { id := "scene_1", name := "S2", resourceId := sceneResourceId "scene_1",
    nodes := [c6Node] }

/-- Witness for C6: removing `S2` from `c6State` satisfies the cascade
description at a concrete two-scene state with a cross-scene reference. -/
theorem removeScene_cascade_witness :
    (2 ≤ c6State.scenes.length ∧
      getScene c6State "scene_1" = some c6Scene ∧
      "scene_1" ∈ c6State.displayOrder ∧
      ((getSceneItems c6State).map (fun n => n.sceneItemId)).Nodup) ∧
    (∃ st4 swEvs,
      removeScene c6State "scene_1" false =
        (some c6Scene, st4,
          (c6Scene.nodes.map (fun n =>
              SceneEvent.itemRemoved n.sceneItemId n.sourceId) ++
            (refNodes c6State "scene_1" c6Scene).map (fun n =>
              SceneEvent.itemRemoved n.sceneItemId n.sourceId)) ++
          swEvs ++ [SceneEvent.sceneRemoved c6Scene.id c6Scene.name]) ∧
      getScene st4 "scene_1" = none ∧
      "scene_1" ∉ st4.displayOrder ∧
      (∀ n ∈ getSceneItems st4, n.sourceId ≠ "scene_1") ∧
      (c6State.activeSceneId ≠ "scene_1" → swEvs = [] ∧
        st4.activeSceneId = c6State.activeSceneId) ∧
      (c6State.activeSceneId = "scene_1" →
        ∀ k ks,
          (sceneKeys c6State).filter (fun x => x != "scene_1") = k :: ks →
          st4.activeSceneId = k ∧
          ∃ k2 nm, swEvs = [SceneEvent.sceneSwitched k2 nm])) :=
  ⟨⟨by decide, by decide, by decide, by decide⟩,
    removeScene_cascade c6State "scene_1" c6Scene (by decide) (by decide)
      (by decide) (by decide)⟩

/-! ### C5: what the duplication loop actually copies

`createScene`'s duplication loop runs `newScene.addSource(item.sourceId)` for
each template item: the new node references the template item's existing
source id; no new source is created.  The loop is characterized below over an
explicit state shape. -/

/-- The item-id string the unique-id supply hands out at counter value `c`. -/
def itemIdStr (c : Nat) : String :=
  "item_" ++ toString c

/-- The node the duplication loop builds for a template item at counter value
`c`: a fresh item id, the template item's existing source id, and the
template item's settings. -/
def copyNode (c : Nat) (it : SceneItemRec) : SceneItemRec :=
  { sceneItemId := itemIdStr c, sourceId := it.sourceId,
    transform := it.transform, visible := it.visible, locked := it.locked }

/-- The node list accumulated by the duplication loop: each processed item is
prepended as its copy, the counter advancing by one per item. -/
def copyAcc : Nat → List SceneItemRec → List SceneItemRec → List SceneItemRec
  | _, [], cur => cur
  | c, it :: rest, cur => copyAcc (c + 1) rest (copyNode c it :: cur)

/-- Every node stored anywhere in the scene table. -/
def allNodes (st : ScenesState) : List SceneItemRec :=
  st.scenes.flatMap (fun p => p.2.nodes)

/-- The items of the base scenes, in display order. -/
def baseItems (B : List (String × SceneRec)) (D : List String) :
    List SceneItemRec :=
  D.flatMap (fun d =>
    match alookup B d with
    | none => []
    | some sc => sc.nodes)

/-- A scene record with the given node list (`mkSceneRec` generalized). -/
def mkSceneRecN (id name : String) (nodes : List SceneItemRec) : SceneRec :=
  { id := id, name := name, resourceId := sceneResourceId id, nodes := nodes }

/-- The state shape maintained by `createScene`'s duplication loop: base
scenes `B`, base display order `D`, and the freshly added scene `nid` (named
`nm`) holding the nodes copied so far. -/
def dupShape (B : List (String × SceneRec)) (D : List String) (A : String)
    (S : List (String × SourceRec)) (nid nm : String)
    (cur : List SceneItemRec) (c : Nat) : ScenesState :=
  { activeSceneId := A, displayOrder := D ++ [nid],
    scenes := upsert B nid (mkSceneRecN nid nm cur),
    sources := S, counter := c }

theorem alookup_not_mem {α : Type} (l : List (String × α)) (k : String)
    (h : k ∉ l.map Prod.fst) : alookup l k = none := by
  induction l with
  | nil => rfl
  | cons p t ih =>
      rw [List.map_cons, List.mem_cons] at h
      push_neg at h
      rw [alookup_cons, if_neg (fun hc => h.1 hc.symm)]
      exact ih h.2

theorem alookup_mem {α : Type} {l : List (String × α)} {k : String} {v : α}
    (h : alookup l k = some v) : (k, v) ∈ l := by
  induction l with
  | nil => exact absurd h (by simp [alookup])
  | cons p t ih =>
      rw [alookup_cons] at h
      by_cases hp : p.1 = k
      · rw [if_pos hp] at h
        rw [Option.some_inj] at h
        rw [List.mem_cons]
        left
        rw [← hp, ← h]
      · rw [if_neg hp] at h
        exact List.mem_cons_of_mem p (ih h)

theorem alookup_append_some {α : Type} (l l' : List (String × α))
    (k : String) (v : α) (h : alookup l k = some v) :
    alookup (l ++ l') k = some v := by
  induction l with
  | nil => exact absurd h (by simp [alookup])
  | cons p t ih =>
      rw [alookup_cons] at h
      rw [List.cons_append, alookup_cons]
      by_cases hp : p.1 = k
      · rw [if_pos hp] at h
        rwa [if_pos hp]
      · rw [if_neg hp] at h
        rw [if_neg hp]
        exact ih h

theorem find?_append_none {α : Type} (l l' : List α) (p : α → Bool)
    (h : l.find? p = none) : (l ++ l').find? p = l'.find? p := by
  induction l with
  | nil => rfl
  | cons a t ih =>
      by_cases ha : p a = true
      · rw [List.find?_cons_of_pos _ ha] at h
        exact absurd h (by simp)
      · rw [List.find?_cons_of_neg _ (by simpa using ha)] at h
        rw [List.cons_append, List.find?_cons_of_neg _ (by simpa using ha)]
        exact ih h

theorem map_guardItem_id (ns : List SceneItemRec) (iid : String)
    (f : SceneItemRec → SceneItemRec)
    (h : ∀ n ∈ ns, n.sceneItemId ≠ iid) :
    ns.map (guardItem iid f) = ns := by
  have h2 : ∀ n ∈ ns, guardItem iid f n = n := by
    intro n hn
    unfold guardItem
    rw [if_neg (by simp [h n hn])]
  calc ns.map (guardItem iid f) = ns.map (fun n => n) :=
        List.map_congr_left h2
    _ = ns := List.map_id' ns

theorem flatMap_congr_mem {α β : Type} (l : List α) (F G : α → List β)
    (h : ∀ a ∈ l, F a = G a) : l.flatMap F = l.flatMap G := by
  induction l with
  | nil => rfl
  | cons a t ih =>
      rw [List.flatMap_cons, List.flatMap_cons,
        h a (List.mem_cons_self a t),
        ih (fun b hb => h b (List.mem_cons_of_mem a hb))]

theorem mem_baseItems_allNodes (B : List (String × SceneRec))
    (D : List String) (n : SceneItemRec) (h : n ∈ baseItems B D) :
    n ∈ B.flatMap (fun p => p.2.nodes) := by
  unfold baseItems at h
  rw [List.mem_flatMap] at h
  obtain ⟨d, hd, hn⟩ := h
  cases hg : alookup B d with
  | none => rw [hg] at hn; simp at hn
  | some sc =>
      rw [hg] at hn
      exact List.mem_flatMap.mpr ⟨(d, sc), alookup_mem hg, hn⟩

theorem getSceneItems_dupShape (B : List (String × SceneRec))
    (D : List String) (A : String) (S : List (String × SourceRec))
    (nid nm : String) (cur : List SceneItemRec) (c : Nat)
    (hB : nid ∉ B.map Prod.fst) (hD : nid ∉ D) :
    getSceneItems (dupShape B D A S nid nm cur c) = baseItems B D ++ cur := by
  unfold getSceneItems getScene dupShape baseItems
  dsimp only
  rw [upsert_absent _ _ _ (alookup_not_mem _ _ hB)]
  rw [List.flatMap_append]
  congr 1
  · apply flatMap_congr_mem
    intro d hd
    have hdne : nid ≠ d := fun hc => hD (hc ▸ hd)
    cases hg : alookup B d with
    | none =>
        rw [alookup_append _ _ _ hg, alookup_cons, if_neg hdne]
        rfl
    | some sc => rw [alookup_append_some _ _ _ _ hg]
  · rw [List.flatMap_cons, alookup_append _ _ _ (alookup_not_mem _ _ hB),
      alookup_cons, if_pos rfl]
    dsimp only [mkSceneRecN]
    rw [List.flatMap_nil, List.append_nil]

theorem copyAcc_map {β : Type} (f : SceneItemRec → β) (g : SceneItemRec → β)
    (hfg : ∀ c it, f (copyNode c it) = g it) :
    ∀ (todo cur : List SceneItemRec) (c : Nat),
    (copyAcc c todo cur).map f = todo.reverse.map g ++ cur.map f := by
  intro todo
  induction todo with
  | nil => intro cur c; simp [copyAcc]
  | cons it rest ih =>
      intro cur c
      show (copyAcc (c + 1) rest (copyNode c it :: cur)).map f = _
      rw [ih (copyNode c it :: cur) (c + 1), List.map_cons, hfg c it,
        List.reverse_cons, List.map_append]
      simp

theorem updateVal_not_mem {α : Type} (l : List (String × α)) (k : String)
    (f : α → α) (h : k ∉ l.map Prod.fst) : updateVal l k f = l := by
  have h2 : ∀ p ∈ l, (if p.1 == k then (p.1, f p.2) else p) = p := by
    intro p hp
    have hne : p.1 ≠ k := fun hc => h (hc ▸ List.mem_map.mpr ⟨p, hp, rfl⟩)
    rw [if_neg (by simpa using hne)]
  calc updateVal l k f = l.map (fun p => p) := List.map_congr_left h2
    _ = l := List.map_id' l

theorem updateVal_upsert {α : Type} (l : List (String × α)) (k : String)
    (v : α) (f : α → α) (h : k ∉ l.map Prod.fst) :
    updateVal (upsert l k v) k f = upsert l k (f v) := by
  rw [upsert_absent _ _ _ (alookup_not_mem _ _ h),
    upsert_absent _ _ _ (alookup_not_mem _ _ h)]
  unfold updateVal
  rw [List.map_append]
  have h1 : List.map (fun p => if p.1 == k then (p.1, f p.2) else p) l = l :=
    updateVal_not_mem l k f h
  rw [h1]
  congr 1
  simp

/-- Per-scene node rewrite that touches no stored node. -/
theorem guardItem_self (iid : String) (f : SceneItemRec → SceneItemRec)
    (n : SceneItemRec) (h : n.sceneItemId = iid) :
    guardItem iid f n = f n := by
  unfold guardItem
  rw [if_pos (by simp [h])]

theorem map_nodes_untouched (l : List (String × SceneRec)) (iid : String)
    (f : SceneItemRec → SceneItemRec)
    (h : ∀ n ∈ l.flatMap (fun p => p.2.nodes), n.sceneItemId ≠ iid) :
    l.map (fun p =>
        (p.1, { p.2 with nodes := p.2.nodes.map (guardItem iid f) })) = l := by
  have h2 : ∀ p ∈ l,
      (p.1, { p.2 with nodes := p.2.nodes.map (guardItem iid f) }) = p := by
    intro p hp
    rw [map_guardItem_id _ _ _
      (fun n hn => h n (List.mem_flatMap.mpr ⟨p, hp, hn⟩))]
  calc l.map (fun p =>
        (p.1, { p.2 with nodes := p.2.nodes.map (guardItem iid f) })) =
      l.map (fun p => p) := List.map_congr_left h2
    _ = l := List.map_id' l

/-- The item `Scene.addSource` builds on the state `st`. -/
def newItemAt (st : ScenesState) (src : String) : SceneItemRec :=
  { sceneItemId := freshItemId st, sourceId := src,
    transform := defaultTransform, visible := true, locked := false }

/-- Prepend an item to a scene record's node list. -/
def prependNode (item : SceneItemRec) (sc : SceneRec) : SceneRec :=
  { sc with nodes := item :: sc.nodes }

/-- The state after an accepted `Scene.addSource`. -/
def addedState (st : ScenesState) (nid src : String) : ScenesState :=
  { st with
      scenes := updateVal st.scenes nid (prependNode (newItemAt st src)),
      counter := st.counter + 1 }

theorem addSource_shape (st : ScenesState) (nid src : String)
    (hg : (getScene st nid).isSome = true)
    (hcyc : embedWouldCycle st nid src = false) :
    addSourceToScene st nid src =
      (some (newItemAt st src), addedState st nid src,
        [SceneEvent.itemAdded (freshItemId st) src]) := by
  unfold addSourceToScene
  cases hgs : getScene st nid with
  | none => rw [hgs] at hg; simp at hg
  | some r =>
      rw [hcyc, if_neg Bool.false_ne_true]
      rfl

/-- The item the duplication loop inserts at counter value `c` (before its
settings are copied). -/
def preNode (c : Nat) (src : String) : SceneItemRec :=
  { sceneItemId := itemIdStr c, sourceId := src,
    transform := defaultTransform, visible := true, locked := false }

/-- One duplication step on the loop's state shape: the copied node
references the template item's existing source id, carries its settings, and
one `itemAdded` plus one `itemUpdated` are emitted. -/
theorem dupStep_copy (B : List (String × SceneRec)) (D : List String)
    (A : String) (S : List (String × SourceRec)) (nid nm : String)
    (hB : nid ∉ B.map Prod.fst) (hD : nid ∉ D)
    (cur : List SceneItemRec) (c : Nat) (evs : List SceneEvent)
    (it : SceneItemRec)
    (hs1 : it.sourceId ∉ B.map Prod.fst) (hs2 : it.sourceId ≠ nid)
    (hfB : ∀ n ∈ B.flatMap (fun p => p.2.nodes), n.sceneItemId ≠ itemIdStr c)
    (hfC : ∀ n ∈ cur, n.sceneItemId ≠ itemIdStr c) :
    dupStep nid (dupShape B D A S nid nm cur c, evs) it =
      (dupShape B D A S nid nm (copyNode c it :: cur) (c + 1),
        evs ++ [SceneEvent.itemAdded (itemIdStr c) it.sourceId,
          SceneEvent.itemUpdated (itemIdStr c)]) := by
  have hga : getScene (dupShape B D A S nid nm cur c) nid =
      some (mkSceneRecN nid nm cur) := by
    unfold getScene dupShape
    exact alookup_upsert_self _ _ _
  have hcyc : embedWouldCycle (dupShape B D A S nid nm cur c) nid
      it.sourceId = false := by
    unfold embedWouldCycle isSceneSource getScene dupShape
    dsimp only
    rw [upsert_absent _ _ _ (alookup_not_mem _ _ hB),
      alookup_append _ _ _ (alookup_not_mem _ _ hs1),
      alookup_cons, if_neg (fun hc => hs2 hc.symm)]
    rfl
  have hadd := addSource_shape (dupShape B D A S nid nm cur c) nid
    it.sourceId (by rw [hga]; rfl) hcyc
  have hnewpre : newItemAt (dupShape B D A S nid nm cur c) it.sourceId =
      preNode c it.sourceId := rfl
  have hfreshpre : freshItemId (dupShape B D A S nid nm cur c) =
      itemIdStr c := rfl
  have hprojpre : (preNode c it.sourceId).sceneItemId = itemIdStr c := rfl
  have hstate : addedState (dupShape B D A S nid nm cur c) nid it.sourceId =
      dupShape B D A S nid nm (preNode c it.sourceId :: cur) (c + 1) := by
    unfold addedState dupShape
    dsimp only
    rw [updateVal_upsert _ _ _ _ hB]
    rfl
  have hfind : findItem (dupShape B D A S nid nm
        (preNode c it.sourceId :: cur) (c + 1)) (itemIdStr c) =
      some (preNode c it.sourceId) := by
    unfold findItem
    rw [getSceneItems_dupShape _ _ _ _ _ _ _ _ hB hD]
    have hbase : (baseItems B D).find?
        (fun n => n.sceneItemId == itemIdStr c) = none := by
      rw [List.find?_eq_none]
      intro x hx
      simp only [beq_iff_eq]
      exact hfB x (mem_baseItems_allNodes _ _ x hx)
    rw [find?_append_none _ _ _ hbase]
    exact List.find?_cons_of_pos _ (beq_self_eq_true _)
  have hupd : updateItemInState
      (dupShape B D A S nid nm (preNode c it.sourceId :: cur) (c + 1))
      (itemIdStr c)
      (fun n => { n with transform := (getItemSettings it).transform,
                         visible := (getItemSettings it).visible,
                         locked := (getItemSettings it).locked }) =
      dupShape B D A S nid nm (copyNode c it :: cur) (c + 1) := by
    unfold updateItemInState dupShape
    dsimp only
    rw [upsert_absent _ _ _ (alookup_not_mem _ _ hB),
      upsert_absent _ _ _ (alookup_not_mem _ _ hB),
      List.map_append, map_nodes_untouched _ _ _ hfB]
    have hmapone : ([(nid, mkSceneRecN nid nm
        (preNode c it.sourceId :: cur))].map
          (fun p => (p.1, { p.2 with nodes := p.2.nodes.map (guardItem
            (itemIdStr c) (fun n =>
              { n with transform := (getItemSettings it).transform,
                       visible := (getItemSettings it).visible,
                       locked := (getItemSettings it).locked })) }))) =
        [(nid, mkSceneRecN nid nm (copyNode c it :: cur))] := by
      rw [List.map_cons]
      dsimp only [mkSceneRecN]
      rw [List.map_cons]
      rw [map_guardItem_id _ _ _ hfC]
      rw [guardItem_self (itemIdStr c) _ (preNode c it.sourceId) rfl]
      rfl
    rw [hmapone]
  unfold dupStep
  rw [hadd]
  dsimp only
  rw [hnewpre, hfreshpre, hprojpre, hstate]
  unfold setItemSettings
  rw [hfind]
  dsimp only
  rw [hupd]
  rw [List.append_assoc]
  rfl

/-- The duplication loop over a template snapshot, run on the loop's state
shape: it accumulates one copy per item (`copyAcc`), advances the counter by
the number of items, and touches nothing else of the state. -/
theorem dupFold_copies (B : List (String × SceneRec)) (D : List String)
    (A : String) (S : List (String × SourceRec)) (nid nm : String)
    (hB : nid ∉ B.map Prod.fst) (hD : nid ∉ D) :
    ∀ (todo cur : List SceneItemRec) (c : Nat) (evs : List SceneEvent),
    (∀ n ∈ todo, n.sourceId ∉ B.map Prod.fst ∧ n.sourceId ≠ nid) →
    (∀ n ∈ B.flatMap (fun p => p.2.nodes), ∀ j < todo.length,
      n.sceneItemId ≠ itemIdStr (c + j)) →
    (∀ n ∈ cur, ∀ j < todo.length, n.sceneItemId ≠ itemIdStr (c + j)) →
    (∀ j k, j < todo.length → k < todo.length →
      itemIdStr (c + j) = itemIdStr (c + k) → j = k) →
    ∃ devs, todo.foldl (dupStep nid) (dupShape B D A S nid nm cur c, evs) =
      (dupShape B D A S nid nm (copyAcc c todo cur) (c + todo.length),
        evs ++ devs) := by
  intro todo
  induction todo with
  | nil =>
      intro cur c evs _ _ _ _
      exact ⟨[], by simp [copyAcc]⟩
  | cons it rest ih =>
      intro cur c evs hsrc hfB hfC hwin
      rw [List.foldl_cons]
      rw [dupStep_copy B D A S nid nm hB hD cur c evs it
        (hsrc it (List.mem_cons_self it rest)).1
        (hsrc it (List.mem_cons_self it rest)).2
        (fun n hn => hfB n hn 0 (by simp))
        (fun n hn => hfC n hn 0 (by simp))]
      have hsrc2 : ∀ n ∈ rest, n.sourceId ∉ B.map Prod.fst ∧
          n.sourceId ≠ nid :=
        fun n hn => hsrc n (List.mem_cons_of_mem it hn)
      have hfB2 : ∀ n ∈ B.flatMap (fun p => p.2.nodes), ∀ j < rest.length,
          n.sceneItemId ≠ itemIdStr (c + 1 + j) := by
        intro n hn j hj
        have h2 := hfB n hn (j + 1) (by simp; omega)
        rw [show c + (j + 1) = c + 1 + j by omega] at h2
        exact h2
      have hfC2 : ∀ n ∈ copyNode c it :: cur, ∀ j < rest.length,
          n.sceneItemId ≠ itemIdStr (c + 1 + j) := by
        intro n hn j hj
        rcases List.mem_cons.mp hn with h | h
        · rw [h]
          show itemIdStr c ≠ itemIdStr (c + 1 + j)
          intro hc
          have h0 : itemIdStr (c + 0) = itemIdStr (c + (j + 1)) := by
            rw [show c + 0 = c from rfl, show c + (j + 1) = c + 1 + j by omega]
            exact hc
          have := hwin 0 (j + 1) (by simp) (by simp; omega) h0
          omega
        · have h2 := hfC n h (j + 1) (by simp; omega)
          rw [show c + (j + 1) = c + 1 + j by omega] at h2
          exact h2
      have hwin2 : ∀ j k, j < rest.length → k < rest.length →
          itemIdStr (c + 1 + j) = itemIdStr (c + 1 + k) → j = k := by
        intro j k hj hk he
        rw [show c + 1 + j = c + (j + 1) by omega,
          show c + 1 + k = c + (k + 1) by omega] at he
        have := hwin (j + 1) (k + 1) (by simp; omega) (by simp; omega) he
        omega
      obtain ⟨devs, hrest⟩ := ih (copyNode c it :: cur) (c + 1)
        (evs ++ [SceneEvent.itemAdded (itemIdStr c) it.sourceId,
          SceneEvent.itemUpdated (itemIdStr c)])
        hsrc2 hfB2 hfC2 hwin2
      refine ⟨[SceneEvent.itemAdded (itemIdStr c) it.sourceId,
        SceneEvent.itemUpdated (itemIdStr c)] ++ devs, ?_⟩
      rw [hrest]
      rw [show c + 1 + rest.length = c + (it :: rest).length by
        simp; omega]
      rw [← List.append_assoc]
      rfl

theorem getSceneByName_concat_other (st st' : ScenesState) (k : String)
    (sc : SceneRec) (name : String)
    (hsc : st'.scenes = st.scenes ++ [(k, sc)])
    (hn : (sc.name == name) = false) :
    getSceneByName st' name = getSceneByName st name := by
  unfold getSceneByName
  rw [hsc, List.filter_append]
  have h1 : List.filter (fun p => p.2.name == name) [(k, sc)] = [] := by
    simp only [List.filter, hn]
  rw [h1, List.append_nil]

/-- The duplication phase of `createScene` on the loop's state shape: the
template's node list is replayed as copies (template order restored by the
reversed snapshot), the counter advances by the template's length, and the
rest of the state is untouched. -/
theorem dupPhase_copies (B : List (String × SceneRec)) (D : List String)
    (A : String) (S : List (String × SourceRec)) (nid nm tname : String)
    (old : SceneRec) (c : Nat)
    (hB : nid ∉ B.map Prod.fst) (hD : nid ∉ D)
    (hold2 : getSceneByName (dupShape B D A S nid nm [] c) tname = some old)
    (hsrc : ∀ n ∈ old.nodes, n.sourceId ∉ B.map Prod.fst ∧ n.sourceId ≠ nid)
    (hfB : ∀ n ∈ B.flatMap (fun p => p.2.nodes), ∀ j < old.nodes.length,
      n.sceneItemId ≠ itemIdStr (c + j))
    (hwin : ∀ j k, j < old.nodes.length → k < old.nodes.length →
      itemIdStr (c + j) = itemIdStr (c + k) → j = k) :
    ∃ devs, dupPhase nid (some tname) (dupShape B D A S nid nm [] c) =
      (dupShape B D A S nid nm (copyAcc c old.nodes.reverse [])
        (c + old.nodes.length), devs) := by
  obtain ⟨devs, hf⟩ := dupFold_copies B D A S nid nm hB hD
    old.nodes.reverse [] c []
    (fun n hn => hsrc n (List.mem_reverse.mp hn))
    (fun n hn j hj => hfB n hn j (by rwa [List.length_reverse] at hj))
    (fun n hn => absurd hn (List.not_mem_nil n))
    (fun j k hj hk he => hwin j k
      (by rwa [List.length_reverse] at hj)
      (by rwa [List.length_reverse] at hk) he)
  rw [List.length_reverse, List.nil_append] at hf
  refine ⟨devs, ?_⟩
  unfold dupPhase
  dsimp only
  rw [hold2]
  exact hf

/-- C5 amended: `createScene` with `duplicateSourcesFromScene` copies the
template scene's node list into the new scene — one new node per template
item, in the template's order, each carrying the template item's settings —
but every copied node references the template item's EXISTING source id
(`newScene.addSource(item.sourceId)`); no per-item source is created: the
only source the operation registers is the new scene itself.  Hypotheses:
the template is found by name (and differs in name from the new scene), the
generated scene id is fresh, the template's items reference non-scene
sources, and the modelled unique-id supply hands out fresh, pairwise
distinct item ids over the duplication window. -/
theorem createScene_duplicate_reuses_sources (st : ScenesState)
    (name tname : String) (old : SceneRec)
    (hold : getSceneByName st tname = some old)
    (hname : name ≠ tname)
    (hid1 : newSceneId st ∉ st.scenes.map Prod.fst)
    (hid2 : newSceneId st ∉ st.displayOrder)
    (hsrc : ∀ n ∈ old.nodes, n.sourceId ∉ st.scenes.map Prod.fst ∧
      n.sourceId ≠ newSceneId st)
    (hfresh : ∀ n ∈ allNodes st, ∀ j < old.nodes.length,
      n.sceneItemId ≠ itemIdStr (st.counter + 1 + j))
    (hwin : ∀ j < old.nodes.length, ∀ k < old.nodes.length,
      itemIdStr (st.counter + 1 + j) = itemIdStr (st.counter + 1 + k) →
      j = k) :
    (getItems (createScene st name
        { duplicateSourcesFromScene := some tname }).2.1
        (newSceneId st)).map (fun n => n.sourceId) =
      old.nodes.map (fun n => n.sourceId) ∧
    (getItems (createScene st name
        { duplicateSourcesFromScene := some tname }).2.1
        (newSceneId st)).map getItemSettings =
      old.nodes.map getItemSettings ∧
    (createScene st name
        { duplicateSourcesFromScene := some tname }).2.1.sources =
      upsert st.sources (newSceneId st)
        { id := newSceneId st, name := name, isSceneSource := true } := by
  have hold2 : getSceneByName
      (dupShape st.scenes st.displayOrder
        (if st.activeSceneId == "" then newSceneId st else st.activeSceneId)
        (upsert st.sources (newSceneId st)
          { id := newSceneId st, name := name, isSceneSource := true })
        (newSceneId st) name [] (st.counter + 1)) tname = some old := by
    rw [getSceneByName_concat_other st _ (newSceneId st)
      (mkSceneRecN (newSceneId st) name []) tname ?hsc ?hn]
    · exact hold
    case hsc =>
      show upsert st.scenes (newSceneId st)
          (mkSceneRecN (newSceneId st) name []) =
        st.scenes ++ [(newSceneId st, mkSceneRecN (newSceneId st) name [])]
      exact upsert_absent _ _ _ (alookup_not_mem _ _ hid1)
    case hn =>
      show (name == tname) = false
      exact beq_eq_false_iff_ne.mpr hname
  obtain ⟨devs, hdup⟩ := dupPhase_copies st.scenes st.displayOrder
    (if st.activeSceneId == "" then newSceneId st else st.activeSceneId)
    (upsert st.sources (newSceneId st)
      { id := newSceneId st, name := name, isSceneSource := true })
    (newSceneId st) name tname old (st.counter + 1) hid1 hid2 hold2 hsrc
    hfresh (fun j k hj hk => hwin j hj k hk)
  have hst : (createScene st name
      { duplicateSourcesFromScene := some tname }).2.1 =
      (dupPhase (newSceneId st) (some tname)
        (dupShape st.scenes st.displayOrder
          (if st.activeSceneId == "" then newSceneId st
            else st.activeSceneId)
          (upsert st.sources (newSceneId st)
            { id := newSceneId st, name := name, isSceneSource := true })
          (newSceneId st) name [] (st.counter + 1))).1 := by
    unfold createScene activatePhase
    dsimp only
    rw [if_neg Bool.false_ne_true]
    rfl
  rw [hst, hdup]
  have hgi : getItems (dupShape st.scenes st.displayOrder
      (if st.activeSceneId == "" then newSceneId st else st.activeSceneId)
      (upsert st.sources (newSceneId st)
        { id := newSceneId st, name := name, isSceneSource := true })
      (newSceneId st) name
      (copyAcc (st.counter + 1) old.nodes.reverse [])
      (st.counter + 1 + old.nodes.length)) (newSceneId st) =
      copyAcc (st.counter + 1) old.nodes.reverse [] := by
    unfold getItems getScene dupShape
    dsimp only
    rw [alookup_upsert_self]
    rfl
  refine ⟨?_, ?_, ?_⟩
  · rw [hgi]
    have hm := copyAcc_map (fun n => n.sourceId) (fun n => n.sourceId)
      (fun c2 it => rfl) old.nodes.reverse [] (st.counter + 1)
    rw [List.reverse_reverse, List.map_nil, List.append_nil] at hm
    exact hm
  · rw [hgi]
    have hm := copyAcc_map getItemSettings getItemSettings
      (fun c2 it => rfl) old.nodes.reverse [] (st.counter + 1)
    rw [List.reverse_reverse, List.map_nil, List.append_nil] at hm
    exact hm
  · rfl

/-- One scene `T` holding one image item (`Img` via `source_1`): the
duplication template of the tests. -/
def c5State : ScenesState :=
  (createAndAddSource (createScene emptyState "T").2.1 "scene_0" "Img"
    "image_source").2.1

/-- The single item of scene `T` in `c5State`. -/
def c5Item : SceneItemRec :=
  { sceneItemId := "item_2", sourceId := "source_1",
    transform := defaultTransform, visible := true, locked := false }

/-- The record of scene `T` in `c5State`. -/
def c5Old : SceneRec :=
  { id := "scene_0", name := "T", resourceId := sceneResourceId "scene_0",
    nodes := [c5Item] }

/-- `c5State` after `createScene('New', { duplicateSourcesFromScene: 'T' })`. -/
def c5Dup : ScenesState :=
  (createScene c5State "New" { duplicateSourcesFromScene := some "T" }).2.1

/-- C5 counterexample: duplicating scene `T` — whose one item references
`source_1` — into the new scene `scene_3` yields a node that references the
very same existing `source_1`, and the operation registers no new source:
the source registry gains only the new scene's own entry (`scene_3`), not a
newly created copy of `source_1`. -/
theorem createScene_duplicate_cex :
    (getItems c5State "scene_0").map (fun n => n.sourceId) = ["source_1"] ∧
    (getItems c5Dup "scene_3").map (fun n => n.sourceId) = ["source_1"] ∧
    c5Dup.sources.map Prod.fst = ["scene_0", "source_1", "scene_3"] :=
  ⟨rfl, rfl, rfl⟩

/-- Witness for the amended C5 at the concrete template `T`/`Img`. -/
theorem createScene_duplicate_reuses_sources_witness :
    (getSceneByName c5State "T" = some c5Old ∧
      newSceneId c5State ∉ c5State.scenes.map Prod.fst ∧
      newSceneId c5State ∉ c5State.displayOrder ∧
      (∀ n ∈ allNodes c5State, ∀ j < c5Old.nodes.length,
        n.sceneItemId ≠ itemIdStr (c5State.counter + 1 + j))) ∧
    ((getItems (createScene c5State "New"
        { duplicateSourcesFromScene := some "T" }).2.1
        (newSceneId c5State)).map (fun n => n.sourceId) =
      c5Old.nodes.map (fun n => n.sourceId) ∧
     (getItems (createScene c5State "New"
        { duplicateSourcesFromScene := some "T" }).2.1
        (newSceneId c5State)).map getItemSettings =
      c5Old.nodes.map getItemSettings ∧
     (createScene c5State "New"
        { duplicateSourcesFromScene := some "T" }).2.1.sources =
      upsert c5State.sources (newSceneId c5State)
        { id := newSceneId c5State, name := "New", isSceneSource := true }) :=
  ⟨⟨by decide, by decide, by decide, by decide⟩,
    createScene_duplicate_reuses_sources c5State "New" "T" c5Old (by decide)
      (by decide) (by decide) (by decide) (by decide) (by decide)
      (by decide)⟩

end Slobs
